import Mathlib

/-!
Verification of the FHIR request classifier in `fhirstarter/routing.py`.

The classifier matches an HTTP method and URL path against a fixed, ordered
family of patterns (Python regular expressions applied with `re.match`) and
produces an `InteractionInfo` describing the FHIR interaction.

Embedding notes, justified against Python `re` semantics for the specific
patterns in the source:
* every pattern begins with the non-greedy `.*?`, where `.` matches any
  character except a newline; hence the "prefix" portion consumed before the
  recognized tail must be newline-free;
* the anchored patterns end with `$`, which (without `re.MULTILINE`) matches
  at the end of the string or just before a single trailing newline;
* the captured groups of every anchored pattern cannot contain `/`, so the
  decomposition of a successfully matched path into prefix and captured
  segments is unique; the embedding computes it by splitting at the last `/`;
* the class `[A-z]` in the source is the ASCII range 65..122, i.e. the
  letters together with the six characters between `Z` and `a`.
-/

/-- Character class `[A-z]` used for the `resource_type` group: ASCII 65..122. -/
def isAzChar (c : Char) : Bool :=
  'A' ≤ c && c ≤ 'z'

/-- Character class `[A-Za-z0-9\-\.]` used for `resource_id` / `version_id`. -/
def isIdChar (c : Char) : Bool :=
  ('A' ≤ c && c ≤ 'Z') || ('a' ≤ c && c ≤ 'z') || ('0' ≤ c && c ≤ '9') ||
    c = '-' || c = '.'

/-- A string of 1 to 64 characters drawn from `[A-Za-z0-9\-\.]`, the shape
required of a `resource_id` or `version_id` capture. -/
def isIdSegment (s : List Char) : Bool :=
  1 ≤ s.length && s.length ≤ 64 && s.all isIdChar

/-- Split a character list at its last `/`: returns the part before that
slash and the part after it (which therefore contains no `/`). -/
def splitLastSlash : List Char → Option (List Char × List Char)
  | [] => none
  | c :: rest =>
    match splitLastSlash rest with
    | some (b, i) => some (c :: b, i)
    | none => if c = '/' then some ([], rest) else none

/-- Matching of `_METADATA_PATH_REGEX = .*?/metadata` under `re.match`:
there is an occurrence of "/metadata" preceded only by non-newline
characters (`.` does not match a newline). -/
def metadataRegexMatch : List Char → Bool
  | [] => false
  | c :: rest =>
    ("/metadata".data.isPrefixOf (c :: rest)) ||
      (c != '\n' && metadataRegexMatch rest)

/-- Full-string matching of `.*?/(?P<resource_type>[A-z]*)/(?P<resource_id>...)`
(the body of `_READ_PATH_REGEX`, also `_UPDATE_`, `_PATCH_`, `_DELETE_`),
returning the two captures. The decomposition is unique: the `resource_id`
capture is the segment after the last `/`, the `resource_type` capture the
segment before it, and the `.*?` part must be newline-free. -/
def readRegexCore (s : List Char) : Option (List Char × List Char) :=
  match splitLastSlash s with
  | none => none
  | some (b, i) =>
    if isIdSegment i then
      match splitLastSlash b with
      | none => none
      | some (a, t) =>
        if t.all isAzChar && a.all (fun c => c != '\n') then some (t, i)
        else none
    else none

/-- Full-string matching of the body of `_VREAD_PATH_REGEX`:
`.*?/(type)/(id)/_history/(version)`. -/
def vreadRegexCore (s : List Char) :
    Option (List Char × List Char × List Char) :=
  match splitLastSlash s with
  | none => none
  | some (b1, v) =>
    if isIdSegment v then
      match splitLastSlash b1 with
      | none => none
      | some (b2, h) =>
        if h = "_history".data then
          match splitLastSlash b2 with
          | none => none
          | some (b3, i) =>
            if isIdSegment i then
              match splitLastSlash b3 with
              | none => none
              | some (a, t) =>
                if t.all isAzChar && a.all (fun c => c != '\n') then
                  some (t, i, v)
                else none
            else none
        else none
    else none

/-- Full-string matching of the body of `_CREATE_PATH_REGEX` (identical to
`_SEARCH_TYPE_GET_PATH_REGEX`): `.*?/(?P<resource_type>[A-z]*)`. -/
def createRegexCore (s : List Char) : Option (List Char) :=
  match splitLastSlash s with
  | none => none
  | some (a, t) =>
    if t.all isAzChar && a.all (fun c => c != '\n') then some t else none

/-- Full-string matching of the body of `_SEARCH_TYPE_POST_PATH_REGEX`:
`.*?/(?P<resource_type>[A-z]*)/_search`. -/
def searchPostRegexCore (s : List Char) : Option (List Char) :=
  match splitLastSlash s with
  | none => none
  | some (b, last) =>
    if last = "_search".data then
      match splitLastSlash b with
      | none => none
      | some (a, t) =>
        if t.all isAzChar && a.all (fun c => c != '\n') then some t else none
    else none

/-- Python `$` (without MULTILINE) matches at the end of the string or just
before one trailing newline, so an anchored pattern matches `s` when its
body matches all of `s` or all of `s` minus a final newline. -/
def withDollar {α : Type} (core : List Char → Option α) (s : List Char) :
    Option α :=
  match core s with
  | some r => some r
  | none => if s.getLast? = some '\n' then core s.dropLast else none

/-- The eight FHIR interaction kinds of the `InteractionType` literal type. -/
inductive InteractionType where
  | create
  | read
  | vread
  | update
  | searchType
  | delete
  | capabilities
  | patch
deriving DecidableEq, Repr

/-- The `InteractionInfo` dataclass. -/
structure InteractionInfo where
  resource_type : Option String
  interaction_type : Option InteractionType
  resource_id : Option String
  version_id : Option String
deriving DecidableEq, Repr

/-- `InteractionInfo.empty`: the canonical all-absent result. -/
def InteractionInfo.empty : InteractionInfo :=
  { resource_type := none
    interaction_type := none
    resource_id := none
    version_id := none }

/-- `InteractionInfo.from_match`. The argument mirrors `match.groupdict()`
of a successful match (`none` for a failed match): the `resource_type`
group always participates, `resource_id` / `version_id` only in some
patterns. A falsy (empty) or oracle-rejected resource type yields `None`. -/
def InteractionInfo.from_match (o : String → Bool)
    (m : Option (String × Option String × Option String))
    (interaction_type : InteractionType) : Option InteractionInfo :=
  match m with
  | none => none
  | some (resource_type, resource_id, version_id) =>
    if resource_type = "" then none
    else if !(o resource_type) then none
    else some
      { resource_type := some resource_type
        interaction_type := some interaction_type
        resource_id := resource_id
        version_id := version_id }

/-- `MetadataPathMatcher.match`. -/
def MetadataPathMatcher_match (method path : String) :
    Option InteractionInfo :=
  if method != "GET" then none
  else if !(metadataRegexMatch path.data) then none
  else some
    { resource_type := none
      interaction_type := some .capabilities
      resource_id := none
      version_id := none }

/-- `CreatePathMatcher.match`. -/
def CreatePathMatcher_match (o : String → Bool) (method path : String) :
    Option InteractionInfo :=
  if method != "POST" then none
  else
    InteractionInfo.from_match o
      ((withDollar createRegexCore path.data).map
        (fun t => (String.mk t, none, none))) .create

/-- `ReadPathMatcher.match`. -/
def ReadPathMatcher_match (o : String → Bool) (method path : String) :
    Option InteractionInfo :=
  if method != "GET" then none
  else
    InteractionInfo.from_match o
      ((withDollar readRegexCore path.data).map
        (fun ti => (String.mk ti.1, some (String.mk ti.2), none))) .read

/-- `VReadPathMatcher.match`. -/
def VReadPathMatcher_match (o : String → Bool) (method path : String) :
    Option InteractionInfo :=
  if method != "GET" then none
  else
    InteractionInfo.from_match o
      ((withDollar vreadRegexCore path.data).map
        (fun tiv =>
          (String.mk tiv.1, some (String.mk tiv.2.1),
            some (String.mk tiv.2.2)))) .vread

/-- `SearchPathMatcher.match`. -/
def SearchPathMatcher_match (o : String → Bool) (method path : String) :
    Option InteractionInfo :=
  if !(method = "GET" || method = "POST") then none
  else if method = "GET" then
    InteractionInfo.from_match o
      ((withDollar createRegexCore path.data).map
        (fun t => (String.mk t, none, none))) .searchType
  else
    InteractionInfo.from_match o
      ((withDollar searchPostRegexCore path.data).map
        (fun t => (String.mk t, none, none))) .searchType

/-- `UpdatePathMatcher.match`. -/
def UpdatePathMatcher_match (o : String → Bool) (method path : String) :
    Option InteractionInfo :=
  if method != "PUT" then none
  else
    InteractionInfo.from_match o
      ((withDollar readRegexCore path.data).map
        (fun ti => (String.mk ti.1, some (String.mk ti.2), none))) .update

/-- `PatchPathMatcher.match`. -/
def PatchPathMatcher_match (o : String → Bool) (method path : String) :
    Option InteractionInfo :=
  if method != "PATCH" then none
  else
    InteractionInfo.from_match o
      ((withDollar readRegexCore path.data).map
        (fun ti => (String.mk ti.1, some (String.mk ti.2), none))) .patch

/-- `DeletePathMatcher.match`. -/
def DeletePathMatcher_match (o : String → Bool) (method path : String) :
    Option InteractionInfo :=
  if method != "DELETE" then none
  else
    InteractionInfo.from_match o
      ((withDollar readRegexCore path.data).map
        (fun ti => (String.mk ti.1, some (String.mk ti.2), none))) .delete

/-- A request carries a method and a URL path. -/
structure Request where
  method : String
  path : String

/-- First non-`none` element of a list of matcher outputs, mirroring the
`for matcher in matchers: if match := matcher.match(...)` loop (an
`InteractionInfo` instance is always truthy). -/
def firstSome : List (Option InteractionInfo) → Option InteractionInfo
  | [] => none
  | o :: rest =>
    match o with
    | some r => some r
    | none => firstSome rest

/-- `parse_fhir_request`, parameterized by the resource-type oracle
`is_resource_type`. -/
def parse_fhir_request (o : String → Bool) (request : Option Request) :
    InteractionInfo :=
  match request with
  | none => InteractionInfo.empty
  | some req =>
    match
      firstSome
        [MetadataPathMatcher_match req.method req.path,
          ReadPathMatcher_match o req.method req.path,
          VReadPathMatcher_match o req.method req.path,
          CreatePathMatcher_match o req.method req.path,
          SearchPathMatcher_match o req.method req.path,
          UpdatePathMatcher_match o req.method req.path,
          PatchPathMatcher_match o req.method req.path,
          DeletePathMatcher_match o req.method req.path]
    with
    | some info => info
    | none => InteractionInfo.empty

/-- The result produced by the metadata matcher. -/
def capabilitiesInfo : InteractionInfo :=
  { resource_type := none
    interaction_type := some .capabilities
    resource_id := none
    version_id := none }

/-- A mount prefix built from a sequence of path segments: one leading `/`
before each segment. -/
def mountPrefix : List String → String
  | [] => ""
  | s :: rest => "/" ++ s ++ mountPrefix rest

/-- Priority index of an interaction kind: the position of its matcher in
the classifier's fixed order. -/
def kindIdx : InteractionType → Nat
  | .capabilities => 0
  | .read => 1
  | .vread => 2
  | .create => 3
  | .searchType => 4
  | .update => 5
  | .patch => 6
  | .delete => 7

/-- Priority index of a result: the index of its kind, 8 when absent. -/
def infoIdx (r : InteractionInfo) : Nat :=
  match r.interaction_type with
  | some k => kindIdx k
  | none => 8

/-- The per-position data used to compare the dispatch loop on a path and on
the same path with a mount prefix: the matcher output on the original path,
the output on the prefixed path, and the interaction kind owned by the
matcher at that position. -/
def MountStep : Type :=
  Option InteractionInfo × Option InteractionInfo × InteractionType

/-- The mount comparison table for a given oracle, method, original path
and prefixed path: each matcher's output on both paths, with its kind. -/
def mountTable (o : String → Bool) (method p p' : String) : List MountStep :=
  [(MetadataPathMatcher_match method p,
    MetadataPathMatcher_match method p', .capabilities),
   (ReadPathMatcher_match o method p,
    ReadPathMatcher_match o method p', .read),
   (VReadPathMatcher_match o method p,
    VReadPathMatcher_match o method p', .vread),
   (CreatePathMatcher_match o method p,
    CreatePathMatcher_match o method p', .create),
   (SearchPathMatcher_match o method p,
    SearchPathMatcher_match o method p', .searchType),
   (UpdatePathMatcher_match o method p,
    UpdatePathMatcher_match o method p', .update),
   (PatchPathMatcher_match o method p,
    PatchPathMatcher_match o method p', .patch),
   (DeletePathMatcher_match o method p,
    DeletePathMatcher_match o method p', .delete)]

/-- Shape of every value `parse_fhir_request` can return: the canonical
empty result, the capabilities result, or a result whose resource type was
validated by the oracle, is a non-empty `[A-z]*` capture, and whose id and
version id captures (when present) are 1-64 characters of the id class. -/
def WellFormedInfo (o : String → Bool) (r : InteractionInfo) : Prop :=
  r = InteractionInfo.empty ∨ r = capabilitiesInfo ∨
    ((∃ rt : String, r.resource_type = some rt ∧ rt ≠ "" ∧ o rt = true ∧
        rt.data.all isAzChar = true) ∧
      r.interaction_type ≠ none ∧
      (∀ s : String, r.resource_id = some s → isIdSegment s.data = true) ∧
      (∀ s : String, r.version_id = some s → isIdSegment s.data = true))

example :
    parse_fhir_request (fun s => s == "Patient")
      (some { method := "GET", path := "/Patient/123" }) =
    { resource_type := some "Patient"
      interaction_type := some .read
      resource_id := some "123"
      version_id := none } := by decide

example :
    parse_fhir_request (fun s => s == "Patient")
      (some { method := "GET", path := "/metadata" }) = capabilitiesInfo := by
  decide

example :
    parse_fhir_request (fun s => s == "Patient")
      (some { method := "POST", path := "/Patient" }) =
    { resource_type := some "Patient"
      interaction_type := some .create
      resource_id := none
      version_id := none } := by decide

example :
    parse_fhir_request (fun s => s == "Patient")
      (some { method := "GET", path := "/Patient/123/_history/1" }) =
    { resource_type := some "Patient"
      interaction_type := some .vread
      resource_id := some "123"
      version_id := some "1" } := by decide

example :
    parse_fhir_request (fun s => s == "Patient")
      (some { method := "GET", path := "/FakeResource/123" }) =
    InteractionInfo.empty := by decide

example :
    parse_fhir_request (fun s => s == "Patient")
      (some { method := "GET", path := "/subapi/Patient/123" }) =
    { resource_type := some "Patient"
      interaction_type := some .read
      resource_id := some "123"
      version_id := none } := by decide

/-! ### Properties of `splitLastSlash` -/

lemma splitLastSlash_none {s : List Char} (h : splitLastSlash s = none) :
    '/' ∉ s := by
  induction s with
  | nil => simp
  | cons c rest ih =>
    rw [splitLastSlash] at h
    cases hr : splitLastSlash rest with
    | some bi => rw [hr] at h; cases h
    | none =>
      rw [hr] at h
      by_cases hc : c = '/'
      · rw [if_pos hc] at h; cases h
      · rw [if_neg hc] at h
        intro hmem
        rcases List.mem_cons.mp hmem with he | hm
        · exact hc he.symm
        · exact ih hr hm

lemma splitLastSlash_eq {s b i : List Char}
    (h : splitLastSlash s = some (b, i)) : s = b ++ '/' :: i ∧ '/' ∉ i := by
  induction s generalizing b i with
  | nil => simp [splitLastSlash] at h
  | cons c rest ih =>
    rw [splitLastSlash] at h
    cases hr : splitLastSlash rest with
    | some bi =>
      obtain ⟨b', i'⟩ := bi
      rw [hr] at h
      simp only [Option.some_inj, Prod.mk.injEq] at h
      obtain ⟨hb, hi⟩ := h
      obtain ⟨he, hni⟩ := ih hr
      subst hb hi
      exact ⟨by rw [he]; simp, hni⟩
    | none =>
      rw [hr] at h
      by_cases hc : c = '/'
      · rw [if_pos hc] at h
        simp only [Option.some_inj, Prod.mk.injEq] at h
        obtain ⟨hb, hi⟩ := h
        subst hb hi hc
        exact ⟨rfl, splitLastSlash_none hr⟩
      · rw [if_neg hc] at h; cases h

lemma splitLastSlash_append {p b i : List Char}
    (h : splitLastSlash p = some (b, i)) (q : List Char) :
    splitLastSlash (q ++ p) = some (q ++ b, i) := by
  induction q with
  | nil => simpa using h
  | cons c q ih =>
    show splitLastSlash (c :: (q ++ p)) = _
    rw [splitLastSlash, ih]
    rfl

lemma splitLastSlash_append_slash (q : List Char) :
    splitLastSlash (q ++ ['/']) = some (q, []) := by
  induction q with
  | nil => rfl
  | cons c q ih =>
    show splitLastSlash (c :: (q ++ ['/'])) = _
    rw [splitLastSlash, ih]

lemma getLast?_of_splitLastSlash {s b i : List Char}
    (h : splitLastSlash s = some (b, i)) :
    s.getLast? = ('/' :: i).getLast? := by
  obtain ⟨hs, _⟩ := splitLastSlash_eq h
  rw [hs]
  exact List.getLast?_append_of_ne_nil b (by simp)

/-! ### Shape of successful core matches -/

lemma readRegexCore_shape {s t i : List Char}
    (h : readRegexCore s = some (t, i)) :
    t.all isAzChar = true ∧ isIdSegment i = true := by
  unfold readRegexCore at h
  cases h1 : splitLastSlash s with
  | none => rw [h1] at h; cases h
  | some bi =>
    obtain ⟨b, i'⟩ := bi
    rw [h1] at h
    simp only at h
    by_cases hid : isIdSegment i'
    · rw [if_pos hid] at h
      cases h2 : splitLastSlash b with
      | none => rw [h2] at h; cases h
      | some at' =>
        obtain ⟨a, t'⟩ := at'
        rw [h2] at h
        simp only at h
        by_cases hcond : (t'.all isAzChar && a.all (fun c => c != '\n')) = true
        · rw [if_pos hcond] at h
          simp only [Option.some_inj, Prod.mk.injEq] at h
          obtain ⟨ht, hi⟩ := h
          subst ht hi
          simp only [Bool.and_eq_true] at hcond
          exact ⟨hcond.1, hid⟩
        · rw [if_neg hcond] at h; cases h
    · rw [if_neg hid] at h; cases h

lemma vreadRegexCore_shape {s t i v : List Char}
    (h : vreadRegexCore s = some (t, i, v)) :
    t.all isAzChar = true ∧ isIdSegment i = true ∧ isIdSegment v = true := by
  unfold vreadRegexCore at h
  cases h1 : splitLastSlash s with
  | none => rw [h1] at h; cases h
  | some bv =>
    obtain ⟨b1, v'⟩ := bv
    rw [h1] at h
    simp only at h
    by_cases hv : isIdSegment v'
    · rw [if_pos hv] at h
      cases h2 : splitLastSlash b1 with
      | none => rw [h2] at h; cases h
      | some bh =>
        obtain ⟨b2, hseg⟩ := bh
        rw [h2] at h
        simp only at h
        by_cases hh : hseg = "_history".data
        · rw [if_pos hh] at h
          cases h3 : splitLastSlash b2 with
          | none => rw [h3] at h; cases h
          | some bi =>
            obtain ⟨b3, i'⟩ := bi
            rw [h3] at h
            simp only at h
            by_cases hi : isIdSegment i'
            · rw [if_pos hi] at h
              cases h4 : splitLastSlash b3 with
              | none => rw [h4] at h; cases h
              | some at' =>
                obtain ⟨a, t'⟩ := at'
                rw [h4] at h
                simp only at h
                by_cases hcond : (t'.all isAzChar && a.all (fun c => c != '\n')) = true
                · rw [if_pos hcond] at h
                  simp only [Option.some_inj, Prod.mk.injEq] at h
                  obtain ⟨ht, hi', hv'⟩ := h
                  subst ht hi' hv'
                  simp only [Bool.and_eq_true] at hcond
                  exact ⟨hcond.1, hi, hv⟩
                · rw [if_neg hcond] at h; cases h
            · rw [if_neg hi] at h; cases h
        · rw [if_neg hh] at h; cases h
    · rw [if_neg hv] at h; cases h

lemma createRegexCore_shape {s t : List Char}
    (h : createRegexCore s = some t) : t.all isAzChar = true := by
  unfold createRegexCore at h
  cases h1 : splitLastSlash s with
  | none => rw [h1] at h; cases h
  | some at' =>
    obtain ⟨a, t'⟩ := at'
    rw [h1] at h
    simp only at h
    by_cases hcond : (t'.all isAzChar && a.all (fun c => c != '\n')) = true
    · rw [if_pos hcond] at h
      simp only [Option.some_inj] at h
      subst h
      simp only [Bool.and_eq_true] at hcond
      exact hcond.1
    · rw [if_neg hcond] at h; cases h

lemma searchPostRegexCore_shape {s t : List Char}
    (h : searchPostRegexCore s = some t) : t.all isAzChar = true := by
  unfold searchPostRegexCore at h
  cases h1 : splitLastSlash s with
  | none => rw [h1] at h; cases h
  | some bl =>
    obtain ⟨b, last⟩ := bl
    rw [h1] at h
    simp only at h
    by_cases hl : last = "_search".data
    · rw [if_pos hl] at h
      cases h2 : splitLastSlash b with
      | none => rw [h2] at h; cases h
      | some at' =>
        obtain ⟨a, t'⟩ := at'
        rw [h2] at h
        simp only at h
        by_cases hcond : (t'.all isAzChar && a.all (fun c => c != '\n')) = true
        · rw [if_pos hcond] at h
          simp only [Option.some_inj] at h
          subst h
          simp only [Bool.and_eq_true] at hcond
          exact hcond.1
        · rw [if_neg hcond] at h; cases h
    · rw [if_neg hl] at h; cases h

/-! ### Cores decline on strings ending in a newline (so the two positions
Python `$` may take never both succeed) -/

lemma idSegment_false_of_nl {i : List Char}
    (h : ('/' :: i).getLast? = some '\n') : isIdSegment i = false := by
  cases i with
  | nil => simp at h
  | cons x xs =>
    rw [List.getLast?_cons_cons] at h
    have hmem : ('\n' : Char) ∈ x :: xs := List.mem_of_mem_getLast? h
    unfold isIdSegment
    have : (x :: xs).all isIdChar = false := by
      by_contra hc
      have := List.all_eq_true.mp (eq_true_of_ne_false hc) '\n' hmem
      simp [isIdChar] at this
    simp [this]

lemma azAll_false_of_nl {t : List Char}
    (h : ('/' :: t).getLast? = some '\n') : t.all isAzChar = false := by
  cases t with
  | nil => simp at h
  | cons x xs =>
    rw [List.getLast?_cons_cons] at h
    have hmem : ('\n' : Char) ∈ x :: xs := List.mem_of_mem_getLast? h
    by_contra hc
    have := List.all_eq_true.mp (eq_true_of_ne_false hc) '\n' hmem
    simp [isAzChar] at this

lemma readRegexCore_nl {s : List Char} (h : s.getLast? = some '\n') :
    readRegexCore s = none := by
  unfold readRegexCore
  cases h1 : splitLastSlash s with
  | none => rfl
  | some bi =>
    obtain ⟨b, i⟩ := bi
    have hg := getLast?_of_splitLastSlash h1
    rw [h] at hg
    have : isIdSegment i = false := idSegment_false_of_nl hg.symm
    simp [this]

lemma vreadRegexCore_nl {s : List Char} (h : s.getLast? = some '\n') :
    vreadRegexCore s = none := by
  unfold vreadRegexCore
  cases h1 : splitLastSlash s with
  | none => rfl
  | some bv =>
    obtain ⟨b1, v⟩ := bv
    have hg := getLast?_of_splitLastSlash h1
    rw [h] at hg
    have : isIdSegment v = false := idSegment_false_of_nl hg.symm
    simp [this]

lemma createRegexCore_nl {s : List Char} (h : s.getLast? = some '\n') :
    createRegexCore s = none := by
  unfold createRegexCore
  cases h1 : splitLastSlash s with
  | none => rfl
  | some at' =>
    obtain ⟨a, t⟩ := at'
    have hg := getLast?_of_splitLastSlash h1
    rw [h] at hg
    have : t.all isAzChar = false := azAll_false_of_nl hg.symm
    simp [this]

lemma searchPostRegexCore_nl {s : List Char} (h : s.getLast? = some '\n') :
    searchPostRegexCore s = none := by
  unfold searchPostRegexCore
  cases h1 : splitLastSlash s with
  | none => rfl
  | some bl =>
    obtain ⟨b, last⟩ := bl
    have hg := getLast?_of_splitLastSlash h1
    rw [h] at hg
    have hne : last ≠ "_search".data := by
      intro he
      subst he
      simp at hg
    simp [hne]

/-! ### Cores are invariant under prepending a newline-free prefix -/

lemma readRegexCore_append {p : List Char} {x : List Char × List Char}
    (q : List Char) (hq : q.all (fun c => c != '\n') = true)
    (h : readRegexCore p = some x) : readRegexCore (q ++ p) = some x := by
  unfold readRegexCore at h ⊢
  cases h1 : splitLastSlash p with
  | none => rw [h1] at h; cases h
  | some bi =>
    obtain ⟨b, i⟩ := bi
    rw [h1] at h
    simp only at h
    by_cases hid : isIdSegment i
    · rw [if_pos hid] at h
      cases h2 : splitLastSlash b with
      | none => rw [h2] at h; cases h
      | some at' =>
        obtain ⟨a, t⟩ := at'
        rw [h2] at h
        simp only at h
        by_cases hcond : (t.all isAzChar && a.all (fun c => c != '\n')) = true
        · rw [if_pos hcond] at h
          rw [splitLastSlash_append h1 q]
          simp only
          rw [if_pos hid, splitLastSlash_append h2 q]
          simp only
          simp only [Bool.and_eq_true] at hcond
          rw [if_pos (by simp [List.all_append, hq, hcond.1, hcond.2])]
          exact h
        · rw [if_neg hcond] at h; cases h
    · rw [if_neg hid] at h; cases h

lemma vreadRegexCore_append {p : List Char}
    {x : List Char × List Char × List Char}
    (q : List Char) (hq : q.all (fun c => c != '\n') = true)
    (h : vreadRegexCore p = some x) : vreadRegexCore (q ++ p) = some x := by
  unfold vreadRegexCore at h ⊢
  cases h1 : splitLastSlash p with
  | none => rw [h1] at h; cases h
  | some bv =>
    obtain ⟨b1, v⟩ := bv
    rw [h1] at h
    simp only at h
    by_cases hv : isIdSegment v
    · rw [if_pos hv] at h
      cases h2 : splitLastSlash b1 with
      | none => rw [h2] at h; cases h
      | some bh =>
        obtain ⟨b2, hseg⟩ := bh
        rw [h2] at h
        simp only at h
        by_cases hh : hseg = "_history".data
        · rw [if_pos hh] at h
          cases h3 : splitLastSlash b2 with
          | none => rw [h3] at h; cases h
          | some bi =>
            obtain ⟨b3, i⟩ := bi
            rw [h3] at h
            simp only at h
            by_cases hi : isIdSegment i
            · rw [if_pos hi] at h
              cases h4 : splitLastSlash b3 with
              | none => rw [h4] at h; cases h
              | some at' =>
                obtain ⟨a, t⟩ := at'
                rw [h4] at h
                simp only at h
                by_cases hcond :
                    (t.all isAzChar && a.all (fun c => c != '\n')) = true
                · rw [if_pos hcond] at h
                  rw [splitLastSlash_append h1 q]
                  simp only
                  rw [if_pos hv, splitLastSlash_append h2 q]
                  simp only
                  rw [if_pos hh, splitLastSlash_append h3 q]
                  simp only
                  rw [if_pos hi, splitLastSlash_append h4 q]
                  simp only
                  simp only [Bool.and_eq_true] at hcond
                  rw [if_pos (by simp [List.all_append, hq, hcond.1, hcond.2])]
                  exact h
                · rw [if_neg hcond] at h; cases h
            · rw [if_neg hi] at h; cases h
        · rw [if_neg hh] at h; cases h
    · rw [if_neg hv] at h; cases h

lemma createRegexCore_append {p : List Char} {x : List Char}
    (q : List Char) (hq : q.all (fun c => c != '\n') = true)
    (h : createRegexCore p = some x) : createRegexCore (q ++ p) = some x := by
  unfold createRegexCore at h ⊢
  cases h1 : splitLastSlash p with
  | none => rw [h1] at h; cases h
  | some at' =>
    obtain ⟨a, t⟩ := at'
    rw [h1] at h
    simp only at h
    by_cases hcond : (t.all isAzChar && a.all (fun c => c != '\n')) = true
    · rw [if_pos hcond] at h
      rw [splitLastSlash_append h1 q]
      simp only
      simp only [Bool.and_eq_true] at hcond
      rw [if_pos (by simp [List.all_append, hq, hcond.1, hcond.2])]
      exact h
    · rw [if_neg hcond] at h; cases h

lemma searchPostRegexCore_append {p : List Char} {x : List Char}
    (q : List Char) (hq : q.all (fun c => c != '\n') = true)
    (h : searchPostRegexCore p = some x) :
    searchPostRegexCore (q ++ p) = some x := by
  unfold searchPostRegexCore at h ⊢
  cases h1 : splitLastSlash p with
  | none => rw [h1] at h; cases h
  | some bl =>
    obtain ⟨b, last⟩ := bl
    rw [h1] at h
    simp only at h
    by_cases hl : last = "_search".data
    · rw [if_pos hl] at h
      cases h2 : splitLastSlash b with
      | none => rw [h2] at h; cases h
      | some at' =>
        obtain ⟨a, t⟩ := at'
        rw [h2] at h
        simp only at h
        by_cases hcond : (t.all isAzChar && a.all (fun c => c != '\n')) = true
        · rw [if_pos hcond] at h
          rw [splitLastSlash_append h1 q]
          simp only
          rw [if_pos hl, splitLastSlash_append h2 q]
          simp only
          simp only [Bool.and_eq_true] at hcond
          rw [if_pos (by simp [List.all_append, hq, hcond.1, hcond.2])]
          exact h
        · rw [if_neg hcond] at h; cases h
    · rw [if_neg hl] at h; cases h

/-! ### Lifting the core lemmas through the `$` handling -/

lemma withDollar_some {α : Type} {core : List Char → Option α}
    {s : List Char} {x : α} (h : withDollar core s = some x) :
    core s = some x ∨
      (s.getLast? = some '\n' ∧ core s.dropLast = some x) := by
  unfold withDollar at h
  cases hc : core s with
  | some r =>
    rw [hc] at h
    simp only at h
    exact Or.inl h
  | none =>
    rw [hc] at h
    by_cases hl : s.getLast? = some '\n'
    · rw [if_pos hl] at h; exact Or.inr ⟨hl, h⟩
    · rw [if_neg hl] at h; cases h

lemma withDollar_append {α : Type} {core : List Char → Option α}
    {p : List Char} {x : α} (q : List Char)
    (happ : ∀ s y, core s = some y → core (q ++ s) = some y)
    (hnl : ∀ s : List Char, s.getLast? = some '\n' → core s = none)
    (h : withDollar core p = some x) : withDollar core (q ++ p) = some x := by
  rcases withDollar_some h with hc | ⟨hl, hc⟩
  · unfold withDollar
    rw [happ p x hc]
  · have hpne : p ≠ [] := by
      intro he; rw [he] at hl; cases hl
    have hl' : (q ++ p).getLast? = some '\n' := by
      rw [List.getLast?_append_of_ne_nil q hpne]; exact hl
    unfold withDollar
    rw [hnl _ hl', if_pos hl', List.dropLast_append_of_ne_nil q hpne]
    exact happ p.dropLast x hc

/-! ### Inversion of `from_match` and of the matchers -/

lemma from_match_inv {o : String → Bool}
    {m : Option (String × Option String × Option String)}
    {it : InteractionType} {r : InteractionInfo}
    (h : InteractionInfo.from_match o m it = some r) :
    ∃ rt rid vid, m = some (rt, rid, vid) ∧ rt ≠ "" ∧ o rt = true ∧
      r = { resource_type := some rt, interaction_type := some it,
            resource_id := rid, version_id := vid } := by
  cases m with
  | none => simp [InteractionInfo.from_match] at h
  | some g =>
    obtain ⟨rt, rid, vid⟩ := g
    unfold InteractionInfo.from_match at h
    simp only at h
    by_cases he : rt = ""
    · rw [if_pos he] at h; cases h
    · rw [if_neg he] at h
      by_cases ho : o rt = true
      · rw [if_neg (by simp [ho])] at h
        exact ⟨rt, rid, vid, rfl, he, ho, (Option.some_inj.mp h).symm⟩
      · rw [if_pos (by simp [Bool.not_eq_true] at ho ⊢; exact ho)] at h
        cases h

lemma readlike_from_match_inv {o : String → Bool} {pd : List Char}
    {k : InteractionType} {r : InteractionInfo}
    (h : InteractionInfo.from_match o
        ((withDollar readRegexCore pd).map
          (fun ti => (String.mk ti.1, some (String.mk ti.2), none))) k =
      some r) :
    ∃ t i, withDollar readRegexCore pd = some (t, i) ∧
      t.all isAzChar = true ∧ isIdSegment i = true ∧
      String.mk t ≠ "" ∧ o (String.mk t) = true ∧
      r = { resource_type := some (String.mk t),
            interaction_type := some k,
            resource_id := some (String.mk i), version_id := none } := by
  obtain ⟨rt, rid, vid, hm, hne, ho, hr⟩ := from_match_inv h
  rw [Option.map_eq_some'] at hm
  obtain ⟨⟨t, i⟩, hw, hf⟩ := hm
  simp only [Prod.mk.injEq] at hf
  obtain ⟨h1, h2, h3⟩ := hf
  subst h1 h2 h3
  have hshape : t.all isAzChar = true ∧ isIdSegment i = true := by
    rcases withDollar_some hw with hc | ⟨_, hc⟩
    · exact readRegexCore_shape hc
    · exact readRegexCore_shape hc
  exact ⟨t, i, hw, hshape.1, hshape.2, hne, ho, hr⟩

lemma typelike_from_match_inv {o : String → Bool} {pd : List Char}
    {k : InteractionType} {r : InteractionInfo}
    {core : List Char → Option (List Char)}
    (hshape : ∀ s t, core s = some t → t.all isAzChar = true)
    (h : InteractionInfo.from_match o
        ((withDollar core pd).map (fun t => (String.mk t, none, none))) k =
      some r) :
    ∃ t, withDollar core pd = some t ∧ t.all isAzChar = true ∧
      String.mk t ≠ "" ∧ o (String.mk t) = true ∧
      r = { resource_type := some (String.mk t),
            interaction_type := some k,
            resource_id := none, version_id := none } := by
  obtain ⟨rt, rid, vid, hm, hne, ho, hr⟩ := from_match_inv h
  rw [Option.map_eq_some'] at hm
  obtain ⟨t, hw, hf⟩ := hm
  simp only [Prod.mk.injEq] at hf
  obtain ⟨h1, h2, h3⟩ := hf
  subst h1 h2 h3
  have haz : t.all isAzChar = true := by
    rcases withDollar_some hw with hc | ⟨_, hc⟩
    · exact hshape _ _ hc
    · exact hshape _ _ hc
  exact ⟨t, hw, haz, hne, ho, hr⟩

lemma vreadlike_from_match_inv {o : String → Bool} {pd : List Char}
    {r : InteractionInfo}
    (h : InteractionInfo.from_match o
        ((withDollar vreadRegexCore pd).map
          (fun tiv => (String.mk tiv.1, some (String.mk tiv.2.1),
            some (String.mk tiv.2.2)))) .vread = some r) :
    ∃ t i v, withDollar vreadRegexCore pd = some (t, i, v) ∧
      t.all isAzChar = true ∧ isIdSegment i = true ∧ isIdSegment v = true ∧
      String.mk t ≠ "" ∧ o (String.mk t) = true ∧
      r = { resource_type := some (String.mk t),
            interaction_type := some .vread,
            resource_id := some (String.mk i),
            version_id := some (String.mk v) } := by
  obtain ⟨rt, rid, vid, hm, hne, ho, hr⟩ := from_match_inv h
  rw [Option.map_eq_some'] at hm
  obtain ⟨⟨t, i, v⟩, hw, hf⟩ := hm
  simp only [Prod.mk.injEq] at hf
  obtain ⟨h1, h2, h3⟩ := hf
  subst h1 h2 h3
  have hshape : t.all isAzChar = true ∧ isIdSegment i = true ∧
      isIdSegment v = true := by
    rcases withDollar_some hw with hc | ⟨_, hc⟩
    · exact vreadRegexCore_shape hc
    · exact vreadRegexCore_shape hc
  exact ⟨t, i, v, hw, hshape.1, hshape.2.1, hshape.2.2, hne, ho, hr⟩

lemma bne_false_eq {m c : String} (h : ¬((m != c) = true)) : m = c := by
  simpa using h

lemma MetadataPathMatcher_inv {m p : String} {r : InteractionInfo}
    (h : MetadataPathMatcher_match m p = some r) :
    m = "GET" ∧ metadataRegexMatch p.data = true ∧ r = capabilitiesInfo := by
  unfold MetadataPathMatcher_match at h
  by_cases hm : (m != "GET") = true
  · rw [if_pos hm] at h; cases h
  · rw [if_neg hm] at h
    by_cases hg : (!(metadataRegexMatch p.data)) = true
    · rw [if_pos hg] at h; cases h
    · rw [if_neg hg] at h
      refine ⟨bne_false_eq hm, ?_, (Option.some_inj.mp h).symm⟩
      simpa using hg

lemma ReadPathMatcher_inv {o : String → Bool} {m p : String}
    {r : InteractionInfo} (h : ReadPathMatcher_match o m p = some r) :
    m = "GET" ∧ ∃ t i, withDollar readRegexCore p.data = some (t, i) ∧
      t.all isAzChar = true ∧ isIdSegment i = true ∧
      String.mk t ≠ "" ∧ o (String.mk t) = true ∧
      r = { resource_type := some (String.mk t),
            interaction_type := some .read,
            resource_id := some (String.mk i), version_id := none } := by
  unfold ReadPathMatcher_match at h
  by_cases hm : (m != "GET") = true
  · rw [if_pos hm] at h; cases h
  · rw [if_neg hm] at h
    exact ⟨bne_false_eq hm, readlike_from_match_inv h⟩

lemma VReadPathMatcher_inv {o : String → Bool} {m p : String}
    {r : InteractionInfo} (h : VReadPathMatcher_match o m p = some r) :
    m = "GET" ∧ ∃ t i v, withDollar vreadRegexCore p.data = some (t, i, v) ∧
      t.all isAzChar = true ∧ isIdSegment i = true ∧ isIdSegment v = true ∧
      String.mk t ≠ "" ∧ o (String.mk t) = true ∧
      r = { resource_type := some (String.mk t),
            interaction_type := some .vread,
            resource_id := some (String.mk i),
            version_id := some (String.mk v) } := by
  unfold VReadPathMatcher_match at h
  by_cases hm : (m != "GET") = true
  · rw [if_pos hm] at h; cases h
  · rw [if_neg hm] at h
    exact ⟨bne_false_eq hm, vreadlike_from_match_inv h⟩

lemma CreatePathMatcher_inv {o : String → Bool} {m p : String}
    {r : InteractionInfo} (h : CreatePathMatcher_match o m p = some r) :
    m = "POST" ∧ ∃ t, withDollar createRegexCore p.data = some t ∧
      t.all isAzChar = true ∧ String.mk t ≠ "" ∧ o (String.mk t) = true ∧
      r = { resource_type := some (String.mk t),
            interaction_type := some .create,
            resource_id := none, version_id := none } := by
  unfold CreatePathMatcher_match at h
  by_cases hm : (m != "POST") = true
  · rw [if_pos hm] at h; cases h
  · rw [if_neg hm] at h
    exact ⟨bne_false_eq hm,
      typelike_from_match_inv (fun _ _ hc => createRegexCore_shape hc) h⟩

lemma SearchPathMatcher_inv {o : String → Bool} {m p : String}
    {r : InteractionInfo} (h : SearchPathMatcher_match o m p = some r) :
    (m = "GET" ∨ m = "POST") ∧ ∃ t : List Char,
      t.all isAzChar = true ∧ String.mk t ≠ "" ∧ o (String.mk t) = true ∧
      r = { resource_type := some (String.mk t),
            interaction_type := some .searchType,
            resource_id := none, version_id := none } := by
  unfold SearchPathMatcher_match at h
  by_cases hm : (!(m = "GET" || m = "POST")) = true
  · rw [if_pos hm] at h; cases h
  · rw [if_neg hm] at h
    have hmm' : ¬m = "GET" → m = "POST" := by simpa using hm
    have hmm : m = "GET" ∨ m = "POST" := by
      by_cases hget : m = "GET"
      · exact Or.inl hget
      · exact Or.inr (hmm' hget)
    by_cases hget : m = "GET"
    · rw [if_pos hget] at h
      obtain ⟨t, _, haz, hne, ho, hr⟩ :=
        typelike_from_match_inv (fun _ _ hc => createRegexCore_shape hc) h
      exact ⟨hmm, t, haz, hne, ho, hr⟩
    · rw [if_neg hget] at h
      obtain ⟨t, _, haz, hne, ho, hr⟩ :=
        typelike_from_match_inv (fun _ _ hc => searchPostRegexCore_shape hc) h
      exact ⟨hmm, t, haz, hne, ho, hr⟩

lemma UpdatePathMatcher_inv {o : String → Bool} {m p : String}
    {r : InteractionInfo} (h : UpdatePathMatcher_match o m p = some r) :
    m = "PUT" ∧ ∃ t i, withDollar readRegexCore p.data = some (t, i) ∧
      t.all isAzChar = true ∧ isIdSegment i = true ∧
      String.mk t ≠ "" ∧ o (String.mk t) = true ∧
      r = { resource_type := some (String.mk t),
            interaction_type := some .update,
            resource_id := some (String.mk i), version_id := none } := by
  unfold UpdatePathMatcher_match at h
  by_cases hm : (m != "PUT") = true
  · rw [if_pos hm] at h; cases h
  · rw [if_neg hm] at h
    exact ⟨bne_false_eq hm, readlike_from_match_inv h⟩

lemma PatchPathMatcher_inv {o : String → Bool} {m p : String}
    {r : InteractionInfo} (h : PatchPathMatcher_match o m p = some r) :
    m = "PATCH" ∧ ∃ t i, withDollar readRegexCore p.data = some (t, i) ∧
      t.all isAzChar = true ∧ isIdSegment i = true ∧
      String.mk t ≠ "" ∧ o (String.mk t) = true ∧
      r = { resource_type := some (String.mk t),
            interaction_type := some .patch,
            resource_id := some (String.mk i), version_id := none } := by
  unfold PatchPathMatcher_match at h
  by_cases hm : (m != "PATCH") = true
  · rw [if_pos hm] at h; cases h
  · rw [if_neg hm] at h
    exact ⟨bne_false_eq hm, readlike_from_match_inv h⟩

lemma DeletePathMatcher_inv {o : String → Bool} {m p : String}
    {r : InteractionInfo} (h : DeletePathMatcher_match o m p = some r) :
    m = "DELETE" ∧ ∃ t i, withDollar readRegexCore p.data = some (t, i) ∧
      t.all isAzChar = true ∧ isIdSegment i = true ∧
      String.mk t ≠ "" ∧ o (String.mk t) = true ∧
      r = { resource_type := some (String.mk t),
            interaction_type := some .delete,
            resource_id := some (String.mk i), version_id := none } := by
  unfold DeletePathMatcher_match at h
  by_cases hm : (m != "DELETE") = true
  · rw [if_pos hm] at h; cases h
  · rw [if_neg hm] at h
    exact ⟨bne_false_eq hm, readlike_from_match_inv h⟩

/-! ### Matchers are invariant under prepending a newline-free prefix -/

lemma metadataRegexMatch_append {p : List Char} (q : List Char)
    (hq : q.all (fun c => c != '\n') = true)
    (h : metadataRegexMatch p = true) :
    metadataRegexMatch (q ++ p) = true := by
  induction q with
  | nil => simpa using h
  | cons c q ih =>
    simp only [List.all_cons, Bool.and_eq_true] at hq
    show metadataRegexMatch (c :: (q ++ p)) = true
    rw [metadataRegexMatch, ih hq.2]
    simp [hq.1]

lemma MetadataPathMatcher_append {m p : String} {r : InteractionInfo}
    (q : List Char) (hq : q.all (fun c => c != '\n') = true)
    (h : MetadataPathMatcher_match m p = some r) :
    MetadataPathMatcher_match m (String.mk (q ++ p.data)) = some r := by
  obtain ⟨hm, hg, hr⟩ := MetadataPathMatcher_inv h
  subst hm hr
  unfold MetadataPathMatcher_match
  rw [if_neg (by simp)]
  have hg' : metadataRegexMatch (String.mk (q ++ p.data)).data = true := by
    show metadataRegexMatch (q ++ p.data) = true
    exact metadataRegexMatch_append q hq hg
  rw [hg']
  simp [capabilitiesInfo]

lemma ReadPathMatcher_append {o : String → Bool} {m p : String}
    {r : InteractionInfo} (q : List Char)
    (hq : q.all (fun c => c != '\n') = true)
    (h : ReadPathMatcher_match o m p = some r) :
    ReadPathMatcher_match o m (String.mk (q ++ p.data)) = some r := by
  unfold ReadPathMatcher_match at h ⊢
  by_cases hm : (m != "GET") = true
  · rw [if_pos hm] at h; cases h
  · rw [if_neg hm] at h
    rw [if_neg hm]
    cases hw : withDollar readRegexCore p.data with
    | none => rw [hw] at h; simp [InteractionInfo.from_match] at h
    | some ti =>
      rw [hw] at h
      have hw' :
          withDollar readRegexCore (String.mk (q ++ p.data)).data = some ti := by
        show withDollar readRegexCore (q ++ p.data) = some ti
        exact withDollar_append q (fun s y hy => readRegexCore_append q hq hy)
          (fun s hs => readRegexCore_nl hs) hw
      rw [hw']
      exact h

lemma VReadPathMatcher_append {o : String → Bool} {m p : String}
    {r : InteractionInfo} (q : List Char)
    (hq : q.all (fun c => c != '\n') = true)
    (h : VReadPathMatcher_match o m p = some r) :
    VReadPathMatcher_match o m (String.mk (q ++ p.data)) = some r := by
  unfold VReadPathMatcher_match at h ⊢
  by_cases hm : (m != "GET") = true
  · rw [if_pos hm] at h; cases h
  · rw [if_neg hm] at h
    rw [if_neg hm]
    cases hw : withDollar vreadRegexCore p.data with
    | none => rw [hw] at h; simp [InteractionInfo.from_match] at h
    | some tiv =>
      rw [hw] at h
      have hw' :
          withDollar vreadRegexCore (String.mk (q ++ p.data)).data =
            some tiv := by
        show withDollar vreadRegexCore (q ++ p.data) = some tiv
        exact withDollar_append q (fun s y hy => vreadRegexCore_append q hq hy)
          (fun s hs => vreadRegexCore_nl hs) hw
      rw [hw']
      exact h

lemma CreatePathMatcher_append {o : String → Bool} {m p : String}
    {r : InteractionInfo} (q : List Char)
    (hq : q.all (fun c => c != '\n') = true)
    (h : CreatePathMatcher_match o m p = some r) :
    CreatePathMatcher_match o m (String.mk (q ++ p.data)) = some r := by
  unfold CreatePathMatcher_match at h ⊢
  by_cases hm : (m != "POST") = true
  · rw [if_pos hm] at h; cases h
  · rw [if_neg hm] at h
    rw [if_neg hm]
    cases hw : withDollar createRegexCore p.data with
    | none => rw [hw] at h; simp [InteractionInfo.from_match] at h
    | some t =>
      rw [hw] at h
      have hw' :
          withDollar createRegexCore (String.mk (q ++ p.data)).data =
            some t := by
        show withDollar createRegexCore (q ++ p.data) = some t
        exact withDollar_append q
          (fun s y hy => createRegexCore_append q hq hy)
          (fun s hs => createRegexCore_nl hs) hw
      rw [hw']
      exact h

lemma SearchPathMatcher_append {o : String → Bool} {m p : String}
    {r : InteractionInfo} (q : List Char)
    (hq : q.all (fun c => c != '\n') = true)
    (h : SearchPathMatcher_match o m p = some r) :
    SearchPathMatcher_match o m (String.mk (q ++ p.data)) = some r := by
  unfold SearchPathMatcher_match at h ⊢
  by_cases hm : (!(m = "GET" || m = "POST")) = true
  · rw [if_pos hm] at h; cases h
  · rw [if_neg hm] at h
    rw [if_neg hm]
    by_cases hget : m = "GET"
    · rw [if_pos hget] at h
      rw [if_pos hget]
      cases hw : withDollar createRegexCore p.data with
      | none => rw [hw] at h; simp [InteractionInfo.from_match] at h
      | some t =>
        rw [hw] at h
        have hw' :
            withDollar createRegexCore (String.mk (q ++ p.data)).data =
              some t := by
          show withDollar createRegexCore (q ++ p.data) = some t
          exact withDollar_append q
            (fun s y hy => createRegexCore_append q hq hy)
            (fun s hs => createRegexCore_nl hs) hw
        rw [hw']
        exact h
    · rw [if_neg hget] at h
      rw [if_neg hget]
      cases hw : withDollar searchPostRegexCore p.data with
      | none => rw [hw] at h; simp [InteractionInfo.from_match] at h
      | some t =>
        rw [hw] at h
        have hw' :
            withDollar searchPostRegexCore (String.mk (q ++ p.data)).data =
              some t := by
          show withDollar searchPostRegexCore (q ++ p.data) = some t
          exact withDollar_append q
            (fun s y hy => searchPostRegexCore_append q hq hy)
            (fun s hs => searchPostRegexCore_nl hs) hw
        rw [hw']
        exact h

lemma UpdatePathMatcher_append {o : String → Bool} {m p : String}
    {r : InteractionInfo} (q : List Char)
    (hq : q.all (fun c => c != '\n') = true)
    (h : UpdatePathMatcher_match o m p = some r) :
    UpdatePathMatcher_match o m (String.mk (q ++ p.data)) = some r := by
  unfold UpdatePathMatcher_match at h ⊢
  by_cases hm : (m != "PUT") = true
  · rw [if_pos hm] at h; cases h
  · rw [if_neg hm] at h
    rw [if_neg hm]
    cases hw : withDollar readRegexCore p.data with
    | none => rw [hw] at h; simp [InteractionInfo.from_match] at h
    | some ti =>
      rw [hw] at h
      have hw' :
          withDollar readRegexCore (String.mk (q ++ p.data)).data =
            some ti := by
        show withDollar readRegexCore (q ++ p.data) = some ti
        exact withDollar_append q (fun s y hy => readRegexCore_append q hq hy)
          (fun s hs => readRegexCore_nl hs) hw
      rw [hw']
      exact h

lemma PatchPathMatcher_append {o : String → Bool} {m p : String}
    {r : InteractionInfo} (q : List Char)
    (hq : q.all (fun c => c != '\n') = true)
    (h : PatchPathMatcher_match o m p = some r) :
    PatchPathMatcher_match o m (String.mk (q ++ p.data)) = some r := by
  unfold PatchPathMatcher_match at h ⊢
  by_cases hm : (m != "PATCH") = true
  · rw [if_pos hm] at h; cases h
  · rw [if_neg hm] at h
    rw [if_neg hm]
    cases hw : withDollar readRegexCore p.data with
    | none => rw [hw] at h; simp [InteractionInfo.from_match] at h
    | some ti =>
      rw [hw] at h
      have hw' :
          withDollar readRegexCore (String.mk (q ++ p.data)).data =
            some ti := by
        show withDollar readRegexCore (q ++ p.data) = some ti
        exact withDollar_append q (fun s y hy => readRegexCore_append q hq hy)
          (fun s hs => readRegexCore_nl hs) hw
      rw [hw']
      exact h

lemma DeletePathMatcher_append {o : String → Bool} {m p : String}
    {r : InteractionInfo} (q : List Char)
    (hq : q.all (fun c => c != '\n') = true)
    (h : DeletePathMatcher_match o m p = some r) :
    DeletePathMatcher_match o m (String.mk (q ++ p.data)) = some r := by
  unfold DeletePathMatcher_match at h ⊢
  by_cases hm : (m != "DELETE") = true
  · rw [if_pos hm] at h; cases h
  · rw [if_neg hm] at h
    rw [if_neg hm]
    cases hw : withDollar readRegexCore p.data with
    | none => rw [hw] at h; simp [InteractionInfo.from_match] at h
    | some ti =>
      rw [hw] at h
      have hw' :
          withDollar readRegexCore (String.mk (q ++ p.data)).data =
            some ti := by
        show withDollar readRegexCore (q ++ p.data) = some ti
        exact withDollar_append q (fun s y hy => readRegexCore_append q hq hy)
          (fun s hs => readRegexCore_nl hs) hw
      rw [hw']
      exact h

/-! ### The dispatch loop -/

lemma firstSome_mem {l : List (Option InteractionInfo)} {r : InteractionInfo}
    (h : firstSome l = some r) : some r ∈ l := by
  induction l with
  | nil => cases h
  | cons x rest ih =>
    cases x with
    | some y =>
      rw [firstSome] at h
      rw [Option.some_inj.mp h] at *
      exact List.mem_cons_self _ _
    | none =>
      rw [firstSome] at h
      exact List.mem_cons_of_mem _ (ih h)

lemma parse_eq_of_firstSome {o : String → Bool} {m p : String}
    {x : Option InteractionInfo}
    (h : firstSome
        [MetadataPathMatcher_match m p,
          ReadPathMatcher_match o m p,
          VReadPathMatcher_match o m p,
          CreatePathMatcher_match o m p,
          SearchPathMatcher_match o m p,
          UpdatePathMatcher_match o m p,
          PatchPathMatcher_match o m p,
          DeletePathMatcher_match o m p] = x) :
    parse_fhir_request o (some { method := m, path := p }) =
      x.getD InteractionInfo.empty := by
  unfold parse_fhir_request
  simp only
  rw [h]
  cases x <;> rfl

lemma firstSome_mount (triples : List MountStep)
    (hfwd : ∀ e ∈ triples, ∀ x : InteractionInfo,
      e.1 = some x → e.2.1 = some x)
    (hk : ∀ e ∈ triples, ∀ x : InteractionInfo,
      (e.1 = some x ∨ e.2.1 = some x) →
        x.interaction_type = some e.2.2 ∧ x ≠ InteractionInfo.empty)
    (hsorted : triples.Pairwise (fun a b => kindIdx a.2.2 < kindIdx b.2.2)) :
    ∀ r : InteractionInfo,
      firstSome (triples.map (fun e => e.1)) = some r →
      firstSome (triples.map (fun e => e.2.1)) = some r ∨
        (∃ r', firstSome (triples.map (fun e => e.2.1)) = some r' ∧
          r' ≠ InteractionInfo.empty ∧ infoIdx r' < infoIdx r) := by
  induction triples with
  | nil => intro r h; cases h
  | cons e rest ih =>
    intro r h
    obtain ⟨v, v', k⟩ := e
    simp only [List.map_cons] at h ⊢
    cases v with
    | some x =>
      rw [firstSome] at h
      have hx : x = r := Option.some_inj.mp h
      subst hx
      left
      have hfwd' : v' = some x := hfwd _ (List.mem_cons_self _ _) x rfl
      rw [hfwd', firstSome]
    | none =>
      rw [firstSome] at h
      have hrest := ih
        (fun e he => hfwd e (List.mem_cons_of_mem _ he))
        (fun e he => hk e (List.mem_cons_of_mem _ he))
        (List.Pairwise.sublist (List.sublist_cons_self _ _) hsorted) r h
      cases v' with
      | none =>
        simp only [firstSome]
        exact hrest
      | some y =>
        right
        refine ⟨y, by rw [firstSome], ?_, ?_⟩
        · exact (hk _ (List.mem_cons_self _ _) y (Or.inr rfl)).2
        · have hy := (hk _ (List.mem_cons_self _ _) y (Or.inr rfl)).1
          obtain ⟨er, her, hver⟩ :
              ∃ er ∈ rest, er.1 = some r := by
            have hmem := firstSome_mem h
            rw [List.mem_map] at hmem
            obtain ⟨er, her, hver⟩ := hmem
            exact ⟨er, her, hver⟩
          have hr := (hk _ (List.mem_cons_of_mem _ her) r (Or.inl hver)).1
          have hlt : kindIdx k < kindIdx er.2.2 := by
            have := List.pairwise_cons.mp hsorted
            exact this.1 er her
          unfold infoIdx
          rw [hy, hr]
          exact hlt

lemma mountPrefix_data_nl {segs : List String}
    (h : ∀ s ∈ segs, s.data.all (fun c => c != '\n') = true) :
    (mountPrefix segs).data.all (fun c => c != '\n') = true := by
  induction segs with
  | nil => rfl
  | cons s rest ih =>
    show (("/" ++ s ++ mountPrefix rest).data.all (fun c => c != '\n')) = true
    rw [String.data_append ("/" ++ s) (mountPrefix rest),
      String.data_append "/" s]
    simp only [List.append_assoc, List.all_append, Bool.and_eq_true]
    refine ⟨by decide, h s (List.mem_cons_self _ _),
      ih (fun x hx => h x (List.mem_cons_of_mem _ hx))⟩

/-! ### Every classifier result is well-formed -/

lemma parse_wellFormed (o : String → Bool) (req : Option Request) :
    WellFormedInfo o (parse_fhir_request o req) := by
  cases req with
  | none => left; rfl
  | some req =>
    obtain ⟨m, p⟩ := req
    cases hF : firstSome
        [MetadataPathMatcher_match m p,
          ReadPathMatcher_match o m p,
          VReadPathMatcher_match o m p,
          CreatePathMatcher_match o m p,
          SearchPathMatcher_match o m p,
          UpdatePathMatcher_match o m p,
          PatchPathMatcher_match o m p,
          DeletePathMatcher_match o m p] with
    | none =>
      rw [parse_eq_of_firstSome hF]
      left; rfl
    | some r =>
      rw [parse_eq_of_firstSome hF]
      have hmem := firstSome_mem hF
      simp only [List.mem_cons, List.not_mem_nil, or_false] at hmem
      rcases hmem with hc | hc | hc | hc | hc | hc | hc | hc
      · right; left
        exact (MetadataPathMatcher_inv hc.symm).2.2
      · obtain ⟨-, t, i, -, haz, hid, hne, ho, hr⟩ :=
          ReadPathMatcher_inv hc.symm
        subst hr
        right; right
        refine ⟨⟨String.mk t, rfl, hne, ho, haz⟩, by simp, ?_, ?_⟩
        · intro s hs
          rw [← Option.some_inj.mp hs]
          exact hid
        · intro s hs; cases hs
      · obtain ⟨-, t, i, v, -, haz, hid, hvv, hne, ho, hr⟩ :=
          VReadPathMatcher_inv hc.symm
        subst hr
        right; right
        refine ⟨⟨String.mk t, rfl, hne, ho, haz⟩, by simp, ?_, ?_⟩
        · intro s hs
          rw [← Option.some_inj.mp hs]
          exact hid
        · intro s hs
          rw [← Option.some_inj.mp hs]
          exact hvv
      · obtain ⟨-, t, -, haz, hne, ho, hr⟩ := CreatePathMatcher_inv hc.symm
        subst hr
        right; right
        refine ⟨⟨String.mk t, rfl, hne, ho, haz⟩, by simp, ?_, ?_⟩
        · intro s hs; cases hs
        · intro s hs; cases hs
      · obtain ⟨-, t, haz, hne, ho, hr⟩ := SearchPathMatcher_inv hc.symm
        subst hr
        right; right
        refine ⟨⟨String.mk t, rfl, hne, ho, haz⟩, by simp, ?_, ?_⟩
        · intro s hs; cases hs
        · intro s hs; cases hs
      · obtain ⟨-, t, i, -, haz, hid, hne, ho, hr⟩ :=
          UpdatePathMatcher_inv hc.symm
        subst hr
        right; right
        refine ⟨⟨String.mk t, rfl, hne, ho, haz⟩, by simp, ?_, ?_⟩
        · intro s hs
          rw [← Option.some_inj.mp hs]
          exact hid
        · intro s hs; cases hs
      · obtain ⟨-, t, i, -, haz, hid, hne, ho, hr⟩ :=
          PatchPathMatcher_inv hc.symm
        subst hr
        right; right
        refine ⟨⟨String.mk t, rfl, hne, ho, haz⟩, by simp, ?_, ?_⟩
        · intro s hs
          rw [← Option.some_inj.mp hs]
          exact hid
        · intro s hs; cases hs
      · obtain ⟨-, t, i, -, haz, hid, hne, ho, hr⟩ :=
          DeletePathMatcher_inv hc.symm
        subst hr
        right; right
        refine ⟨⟨String.mk t, rfl, hne, ho, haz⟩, by simp, ?_, ?_⟩
        · intro s hs
          rw [← Option.some_inj.mp hs]
          exact hid
        · intro s hs; cases hs

/-! ### Each matcher only ever reports its own kind -/

lemma MetadataPathMatcher_kind {m p : String} {x : InteractionInfo}
    (h : MetadataPathMatcher_match m p = some x) :
    x.interaction_type = some .capabilities ∧ x ≠ InteractionInfo.empty := by
  have hx := (MetadataPathMatcher_inv h).2.2
  subst hx
  exact ⟨rfl, by decide⟩

lemma ReadPathMatcher_kind {o : String → Bool} {m p : String}
    {x : InteractionInfo} (h : ReadPathMatcher_match o m p = some x) :
    x.interaction_type = some .read ∧ x ≠ InteractionInfo.empty := by
  obtain ⟨-, t, i, -, -, -, -, -, hr⟩ := ReadPathMatcher_inv h
  subst hr
  exact ⟨rfl, by simp [InteractionInfo.empty]⟩

lemma VReadPathMatcher_kind {o : String → Bool} {m p : String}
    {x : InteractionInfo} (h : VReadPathMatcher_match o m p = some x) :
    x.interaction_type = some .vread ∧ x ≠ InteractionInfo.empty := by
  obtain ⟨-, t, i, v, -, -, -, -, -, -, hr⟩ := VReadPathMatcher_inv h
  subst hr
  exact ⟨rfl, by simp [InteractionInfo.empty]⟩

lemma CreatePathMatcher_kind {o : String → Bool} {m p : String}
    {x : InteractionInfo} (h : CreatePathMatcher_match o m p = some x) :
    x.interaction_type = some .create ∧ x ≠ InteractionInfo.empty := by
  obtain ⟨-, t, -, -, -, -, hr⟩ := CreatePathMatcher_inv h
  subst hr
  exact ⟨rfl, by simp [InteractionInfo.empty]⟩

lemma SearchPathMatcher_kind {o : String → Bool} {m p : String}
    {x : InteractionInfo} (h : SearchPathMatcher_match o m p = some x) :
    x.interaction_type = some .searchType ∧ x ≠ InteractionInfo.empty := by
  obtain ⟨-, t, -, -, -, hr⟩ := SearchPathMatcher_inv h
  subst hr
  exact ⟨rfl, by simp [InteractionInfo.empty]⟩

lemma UpdatePathMatcher_kind {o : String → Bool} {m p : String}
    {x : InteractionInfo} (h : UpdatePathMatcher_match o m p = some x) :
    x.interaction_type = some .update ∧ x ≠ InteractionInfo.empty := by
  obtain ⟨-, t, i, -, -, -, -, -, hr⟩ := UpdatePathMatcher_inv h
  subst hr
  exact ⟨rfl, by simp [InteractionInfo.empty]⟩

lemma PatchPathMatcher_kind {o : String → Bool} {m p : String}
    {x : InteractionInfo} (h : PatchPathMatcher_match o m p = some x) :
    x.interaction_type = some .patch ∧ x ≠ InteractionInfo.empty := by
  obtain ⟨-, t, i, -, -, -, -, -, hr⟩ := PatchPathMatcher_inv h
  subst hr
  exact ⟨rfl, by simp [InteractionInfo.empty]⟩

lemma DeletePathMatcher_kind {o : String → Bool} {m p : String}
    {x : InteractionInfo} (h : DeletePathMatcher_match o m p = some x) :
    x.interaction_type = some .delete ∧ x ≠ InteractionInfo.empty := by
  obtain ⟨-, t, i, -, -, -, -, -, hr⟩ := DeletePathMatcher_inv h
  subst hr
  exact ⟨rfl, by simp [InteractionInfo.empty]⟩

lemma string_append_mk (a b : String) :
    a ++ b = String.mk (a.data ++ b.data) := by
  cases a; cases b; rfl

lemma mountTable_fwd (o : String → Bool) (method p : String)
    (q : List Char) (hq : q.all (fun c => c != '\n') = true) :
    ∀ e ∈ mountTable o method p (String.mk (q ++ p.data)),
      ∀ x : InteractionInfo, e.1 = some x → e.2.1 = some x := by
  intro e he x hx
  simp only [mountTable, List.mem_cons, List.not_mem_nil, or_false] at he
  rcases he with he | he | he | he | he | he | he | he <;> subst he
  · exact MetadataPathMatcher_append q hq hx
  · exact ReadPathMatcher_append q hq hx
  · exact VReadPathMatcher_append q hq hx
  · exact CreatePathMatcher_append q hq hx
  · exact SearchPathMatcher_append q hq hx
  · exact UpdatePathMatcher_append q hq hx
  · exact PatchPathMatcher_append q hq hx
  · exact DeletePathMatcher_append q hq hx

lemma mountTable_kind (o : String → Bool) (method p p' : String) :
    ∀ e ∈ mountTable o method p p', ∀ x : InteractionInfo,
      (e.1 = some x ∨ e.2.1 = some x) →
        x.interaction_type = some e.2.2 ∧ x ≠ InteractionInfo.empty := by
  intro e he x hx
  simp only [mountTable, List.mem_cons, List.not_mem_nil, or_false] at he
  rcases he with he | he | he | he | he | he | he | he <;> subst he
  · rcases hx with hx | hx
    · exact MetadataPathMatcher_kind hx
    · exact MetadataPathMatcher_kind hx
  · rcases hx with hx | hx
    · exact ReadPathMatcher_kind hx
    · exact ReadPathMatcher_kind hx
  · rcases hx with hx | hx
    · exact VReadPathMatcher_kind hx
    · exact VReadPathMatcher_kind hx
  · rcases hx with hx | hx
    · exact CreatePathMatcher_kind hx
    · exact CreatePathMatcher_kind hx
  · rcases hx with hx | hx
    · exact SearchPathMatcher_kind hx
    · exact SearchPathMatcher_kind hx
  · rcases hx with hx | hx
    · exact UpdatePathMatcher_kind hx
    · exact UpdatePathMatcher_kind hx
  · rcases hx with hx | hx
    · exact PatchPathMatcher_kind hx
    · exact PatchPathMatcher_kind hx
  · rcases hx with hx | hx
    · exact DeletePathMatcher_kind hx
    · exact DeletePathMatcher_kind hx

lemma mountTable_sorted (o : String → Bool) (method p p' : String) :
    List.Pairwise (fun a b : MountStep => kindIdx a.2.2 < kindIdx b.2.2)
      (mountTable o method p p') := by
  unfold mountTable
  simp only [List.pairwise_cons, List.mem_cons, List.not_mem_nil, or_false,
    forall_eq_or_imp, forall_eq, List.Pairwise.nil, false_implies,
    implies_true, and_true]
  decide

lemma mountTable_map_fst (o : String → Bool) (method p p' : String) :
    (mountTable o method p p').map (fun e => e.1) =
      [MetadataPathMatcher_match method p,
        ReadPathMatcher_match o method p,
        VReadPathMatcher_match o method p,
        CreatePathMatcher_match o method p,
        SearchPathMatcher_match o method p,
        UpdatePathMatcher_match o method p,
        PatchPathMatcher_match o method p,
        DeletePathMatcher_match o method p] := rfl

lemma mountTable_map_snd (o : String → Bool) (method p p' : String) :
    (mountTable o method p p').map (fun e => e.2.1) =
      [MetadataPathMatcher_match method p',
        ReadPathMatcher_match o method p',
        VReadPathMatcher_match o method p',
        CreatePathMatcher_match o method p',
        SearchPathMatcher_match o method p',
        UpdatePathMatcher_match o method p',
        PatchPathMatcher_match o method p',
        DeletePathMatcher_match o method p'] := rfl

/-- C2 (amended): prepending a mount prefix of newline-free segments never
destroys a match: the matcher that produced the non-empty result still
produces exactly that result on the prefixed path, so the classifier either
returns the same result or the non-empty result of a strictly earlier
matcher in the priority order; a capabilities result is always preserved
verbatim. -/
theorem C2_mount_path_invariance (o : String → Bool) (method p : String)
    (segs : List String) (r : InteractionInfo)
    (hsegs : ∀ s ∈ segs, s.data.all (fun c => c != '\n') = true)
    (hp : parse_fhir_request o (some { method := method, path := p }) = r)
    (hner : r ≠ InteractionInfo.empty) :
    (parse_fhir_request o
        (some { method := method, path := mountPrefix segs ++ p }) = r ∨
      (parse_fhir_request o
          (some { method := method, path := mountPrefix segs ++ p }) ≠
          InteractionInfo.empty ∧
        infoIdx (parse_fhir_request o
            (some { method := method, path := mountPrefix segs ++ p })) <
          infoIdx r)) ∧
    (r.interaction_type = some .capabilities →
      parse_fhir_request o
        (some { method := method, path := mountPrefix segs ++ p }) = r) := by
  have hq : (mountPrefix segs).data.all (fun c => c != '\n') = true :=
    mountPrefix_data_nl hsegs
  rw [string_append_mk (mountPrefix segs) p]
  cases hF : firstSome
      [MetadataPathMatcher_match method p,
        ReadPathMatcher_match o method p,
        VReadPathMatcher_match o method p,
        CreatePathMatcher_match o method p,
        SearchPathMatcher_match o method p,
        UpdatePathMatcher_match o method p,
        PatchPathMatcher_match o method p,
        DeletePathMatcher_match o method p] with
  | none =>
    rw [parse_eq_of_firstSome hF] at hp
    simp only [Option.getD_none] at hp
    exact absurd hp.symm hner
  | some r0 =>
    rw [parse_eq_of_firstSome hF] at hp
    simp only [Option.getD_some] at hp
    subst hp
    have key := firstSome_mount
      (mountTable o method p (String.mk ((mountPrefix segs).data ++ p.data)))
      (mountTable_fwd o method p (mountPrefix segs).data hq)
      (mountTable_kind o method p _)
      (mountTable_sorted o method p _) r0
      (by rw [mountTable_map_fst]; exact hF)
    rw [mountTable_map_snd] at key
    constructor
    · rcases key with hk1 | ⟨r', hr', hne', hlt⟩
      · left
        rw [parse_eq_of_firstSome hk1]
        rfl
      · right
        rw [parse_eq_of_firstSome hr']
        exact ⟨hne', hlt⟩
    · intro hcap
      have hmem := firstSome_mem hF
      simp only [List.mem_cons, List.not_mem_nil, or_false] at hmem
      rcases hmem with hc | hc | hc | hc | hc | hc | hc | hc
      · have happ := MetadataPathMatcher_append
          (mountPrefix segs).data hq hc.symm
        have hL : firstSome
            [MetadataPathMatcher_match method
                (String.mk ((mountPrefix segs).data ++ p.data)),
              ReadPathMatcher_match o method
                (String.mk ((mountPrefix segs).data ++ p.data)),
              VReadPathMatcher_match o method
                (String.mk ((mountPrefix segs).data ++ p.data)),
              CreatePathMatcher_match o method
                (String.mk ((mountPrefix segs).data ++ p.data)),
              SearchPathMatcher_match o method
                (String.mk ((mountPrefix segs).data ++ p.data)),
              UpdatePathMatcher_match o method
                (String.mk ((mountPrefix segs).data ++ p.data)),
              PatchPathMatcher_match o method
                (String.mk ((mountPrefix segs).data ++ p.data)),
              DeletePathMatcher_match o method
                (String.mk ((mountPrefix segs).data ++ p.data))] =
            some r0 := by
          rw [happ]
          rfl
        rw [parse_eq_of_firstSome hL]
        rfl
      · rw [(ReadPathMatcher_kind hc.symm).1] at hcap; cases hcap
      · rw [(VReadPathMatcher_kind hc.symm).1] at hcap; cases hcap
      · rw [(CreatePathMatcher_kind hc.symm).1] at hcap; cases hcap
      · rw [(SearchPathMatcher_kind hc.symm).1] at hcap; cases hcap
      · rw [(UpdatePathMatcher_kind hc.symm).1] at hcap; cases hcap
      · rw [(PatchPathMatcher_kind hc.symm).1] at hcap; cases hcap
      · rw [(DeletePathMatcher_kind hc.symm).1] at hcap; cases hcap

/-! ### Claims -/

/-- C1 counterexample: for the capabilities result of GET /metadata, the
three capture fields are all absent while the interaction kind is present,
so the claimed biconditional "interaction_type is None iff resource_type,
resource_id and version_id are all None" fails on it. -/
theorem C1_counterexample :
    ¬(((parse_fhir_request (fun _ => true)
          (some { method := "GET", path := "/metadata" })).interaction_type =
        none) ↔
      ((parse_fhir_request (fun _ => true)
          (some { method := "GET", path := "/metadata" })).resource_type =
          none ∧
        (parse_fhir_request (fun _ => true)
          (some { method := "GET", path := "/metadata" })).resource_id =
          none ∧
        (parse_fhir_request (fun _ => true)
          (some { method := "GET", path := "/metadata" })).version_id =
          none)) := by decide

/-- C1 (amended): for every oracle and request, if the returned
interaction_type is None then resource_type, resource_id and version_id are
all None (the result is the canonical empty value); conversely, if all three
are None then the interaction_type is None or is capabilities — the
capabilities result is the one result with all captures absent but a kind
present. -/
theorem C1_kind_absent_characterization (o : String → Bool)
    (req : Option Request) :
    ((parse_fhir_request o req).interaction_type = none →
      (parse_fhir_request o req).resource_type = none ∧
        (parse_fhir_request o req).resource_id = none ∧
        (parse_fhir_request o req).version_id = none) ∧
    ((parse_fhir_request o req).resource_type = none ∧
        (parse_fhir_request o req).resource_id = none ∧
        (parse_fhir_request o req).version_id = none →
      (parse_fhir_request o req).interaction_type = none ∨
        (parse_fhir_request o req).interaction_type =
          some .capabilities) := by
  rcases parse_wellFormed o req with he | he | ⟨⟨rt, hrt, -, -, -⟩, hit, -, -⟩
  · rw [he]
    exact ⟨fun _ => ⟨rfl, rfl, rfl⟩, fun _ => Or.inl rfl⟩
  · rw [he]
    constructor
    · intro h
      simp [capabilitiesInfo] at h
    · intro _
      exact Or.inr rfl
  · constructor
    · intro h
      exact absurd h hit
    · intro h
      rw [hrt] at h
      cases h.1

/-- C1 witness: the amended characterization applied to GET /metadata with
an oracle rejecting everything. -/
theorem C1_witness :
    (parse_fhir_request (fun _ => false)
        (some { method := "GET", path := "/metadata" })).interaction_type =
      none ∨
    (parse_fhir_request (fun _ => false)
        (some { method := "GET", path := "/metadata" })).interaction_type =
      some .capabilities :=
  (C1_kind_absent_characterization (fun _ => false)
    (some { method := "GET", path := "/metadata" })).2 (by decide)

/-- C2 counterexample: GET /Patient classifies as search-type when the
oracle accepts only "Patient"; prepending the single path segment "Patient"
(yielding /Patient/Patient) changes the classification, because the read
matcher, earlier in the order, now matches. So prepending a prefix segment
sequence does not always preserve a non-empty non-capabilities result. -/
theorem C2_counterexample :
    mountPrefix ["Patient"] ++ "/Patient" = "/Patient/Patient" ∧
    parse_fhir_request (fun s => s == "Patient")
      (some { method := "GET", path := "/Patient" }) =
      { resource_type := some "Patient", interaction_type := some .searchType,
        resource_id := none, version_id := none } ∧
    ({ resource_type := some "Patient",
       interaction_type := some .searchType,
       resource_id := none, version_id := none } : InteractionInfo) ≠
      InteractionInfo.empty ∧
    parse_fhir_request (fun s => s == "Patient")
      (some { method := "GET", path := "/Patient/Patient" }) ≠
      { resource_type := some "Patient", interaction_type := some .searchType,
        resource_id := none, version_id := none } := by decide

/-- C2 witness: the amended invariance applied to mounting /Patient/123
under the segment "subapi" with an oracle accepting only "Patient": the
read result survives or an earlier matcher wins. -/
theorem C2_witness :
    (parse_fhir_request (fun s => s == "Patient")
        (some { method := "GET",
                path := mountPrefix ["subapi"] ++ "/Patient/123" }) =
      { resource_type := some "Patient", interaction_type := some .read,
        resource_id := some "123", version_id := none } ∨
      (parse_fhir_request (fun s => s == "Patient")
          (some { method := "GET",
                  path := mountPrefix ["subapi"] ++ "/Patient/123" }) ≠
          InteractionInfo.empty ∧
        infoIdx (parse_fhir_request (fun s => s == "Patient")
            (some { method := "GET",
                    path := mountPrefix ["subapi"] ++ "/Patient/123" })) <
          infoIdx
            { resource_type := some "Patient",
              interaction_type := some .read,
              resource_id := some "123", version_id := none })) ∧
    (({ resource_type := some "Patient", interaction_type := some .read,
        resource_id := some "123",
        version_id := none } : InteractionInfo).interaction_type =
        some .capabilities →
      parse_fhir_request (fun s => s == "Patient")
        (some { method := "GET",
                path := mountPrefix ["subapi"] ++ "/Patient/123" }) =
        { resource_type := some "Patient", interaction_type := some .read,
          resource_id := some "123", version_id := none }) :=
  C2_mount_path_invariance (fun s => s == "Patient") "GET" "/Patient/123"
    ["subapi"]
    { resource_type := some "Patient", interaction_type := some .read,
      resource_id := some "123", version_id := none }
    (by decide) (by decide) (by decide)

/-- C3 counterexample: for GET /Patient/abc with an oracle accepting only
"abc", the read matcher's shape matches with candidate resource type
"Patient", which the oracle rejects — yet the whole classification is not
empty (the search matcher later accepts "abc"). So one rejected candidate
does not force the empty result. -/
theorem C3_counterexample :
    withDollar readRegexCore ("/Patient/abc" : String).data =
      some ("Patient".data, "abc".data) ∧
    (fun s => s == "abc") "Patient" = false ∧
    parse_fhir_request (fun s => s == "abc")
      (some { method := "GET", path := "/Patient/abc" }) ≠
      InteractionInfo.empty := by decide

/-- C3 (amended): a matcher whose captured resource type the oracle rejects
declines (from_match returns None), so the classification can only be
non-empty through a matcher whose own candidate was validated; in
particular GET /FakeResource/123 classifies to the empty result whenever
the oracle rejects "FakeResource". -/
theorem C3_unknown_resource_type :
    (∀ (o : String → Bool) (rt : String) (rid vid : Option String)
        (it : InteractionType), o rt = false →
      InteractionInfo.from_match o (some (rt, rid, vid)) it = none) ∧
    (∀ o : String → Bool, o "FakeResource" = false →
      parse_fhir_request o
        (some { method := "GET", path := "/FakeResource/123" }) =
        InteractionInfo.empty) := by
  constructor
  · intro o rt rid vid it ho
    unfold InteractionInfo.from_match
    simp only
    by_cases he : rt = ""
    · rw [if_pos he]
    · rw [if_neg he, if_pos (by simp [ho])]
  · intro o ho
    have hr : ReadPathMatcher_match o "GET" "/FakeResource/123" = none := by
      have he : ReadPathMatcher_match o "GET" "/FakeResource/123" =
          InteractionInfo.from_match o
            (some ("FakeResource", some "123", none)) .read := rfl
      rw [he]
      unfold InteractionInfo.from_match
      simp [ho]
    have hF : firstSome
        [MetadataPathMatcher_match "GET" "/FakeResource/123",
          ReadPathMatcher_match o "GET" "/FakeResource/123",
          VReadPathMatcher_match o "GET" "/FakeResource/123",
          CreatePathMatcher_match o "GET" "/FakeResource/123",
          SearchPathMatcher_match o "GET" "/FakeResource/123",
          UpdatePathMatcher_match o "GET" "/FakeResource/123",
          PatchPathMatcher_match o "GET" "/FakeResource/123",
          DeletePathMatcher_match o "GET" "/FakeResource/123"] = none := by
      rw [hr]
      rfl
    rw [parse_eq_of_firstSome hF]
    rfl

/-- C3 witness: the amended statement applied to an all-rejecting oracle. -/
theorem C3_witness :
    InteractionInfo.from_match (fun _ => false)
      (some ("X", none, none)) .read = none ∧
    parse_fhir_request (fun _ => false)
      (some { method := "GET", path := "/FakeResource/123" }) =
      InteractionInfo.empty :=
  ⟨C3_unknown_resource_type.1 (fun _ => false) "X" none none .read rfl,
    C3_unknown_resource_type.2 (fun _ => false) rfl⟩

/-- C4: whenever a classification result carries a resource type, the
oracle returns true for exactly that string; resource_type is never set
otherwise. -/
theorem C4_resource_type_oracle_validated (o : String → Bool)
    (req : Option Request) (s : String)
    (h : (parse_fhir_request o req).resource_type = some s) : o s = true := by
  rcases parse_wellFormed o req with he | he | ⟨⟨rt, hrt, -, ho, -⟩, -, -, -⟩
  · rw [he] at h
    cases h
  · rw [he] at h
    simp [capabilitiesInfo] at h
  · rw [hrt] at h
    rw [← Option.some_inj.mp h]
    exact ho

/-- C4 witness: applied to GET /Patient/123 under an oracle accepting only
"Patient". -/
theorem C4_witness : (fun s => s == "Patient") "Patient" = true :=
  C4_resource_type_oracle_validated (fun s => s == "Patient")
    (some { method := "GET", path := "/Patient/123" }) "Patient" (by decide)

/-- C5: when the oracle accepts "Patient" and rejects "_history",
GET /Patient/123/_history/1 classifies as vread of Patient 123 version 1
(the read matcher is tried first but declines because its candidate
resource type "_history" fails the oracle). -/
theorem C5_vread_wins (o : String → Bool) (h1 : o "Patient" = true)
    (h2 : o "_history" = false) :
    parse_fhir_request o
      (some { method := "GET", path := "/Patient/123/_history/1" }) =
      { resource_type := some "Patient", interaction_type := some .vread,
        resource_id := some "123", version_id := some "1" } := by
  have hr : ReadPathMatcher_match o "GET" "/Patient/123/_history/1" =
      none := by
    have he : ReadPathMatcher_match o "GET" "/Patient/123/_history/1" =
        InteractionInfo.from_match o
          (some ("_history", some "1", none)) .read := rfl
    rw [he]
    unfold InteractionInfo.from_match
    simp [h2]
  have hv : VReadPathMatcher_match o "GET" "/Patient/123/_history/1" =
      some { resource_type := some "Patient",
             interaction_type := some .vread,
             resource_id := some "123", version_id := some "1" } := by
    have he : VReadPathMatcher_match o "GET" "/Patient/123/_history/1" =
        InteractionInfo.from_match o
          (some ("Patient", some "123", some "1")) .vread := rfl
    rw [he]
    unfold InteractionInfo.from_match
    simp [h1]
  have hF : firstSome
      [MetadataPathMatcher_match "GET" "/Patient/123/_history/1",
        ReadPathMatcher_match o "GET" "/Patient/123/_history/1",
        VReadPathMatcher_match o "GET" "/Patient/123/_history/1",
        CreatePathMatcher_match o "GET" "/Patient/123/_history/1",
        SearchPathMatcher_match o "GET" "/Patient/123/_history/1",
        UpdatePathMatcher_match o "GET" "/Patient/123/_history/1",
        PatchPathMatcher_match o "GET" "/Patient/123/_history/1",
        DeletePathMatcher_match o "GET" "/Patient/123/_history/1"] =
      some { resource_type := some "Patient",
             interaction_type := some .vread,
             resource_id := some "123", version_id := some "1" } := by
    rw [hr, hv]
    rfl
  rw [parse_eq_of_firstSome hF]
  rfl

/-- C5 witness: instantiated with the oracle accepting exactly "Patient". -/
theorem C5_witness :
    parse_fhir_request (fun s => s == "Patient")
      (some { method := "GET", path := "/Patient/123/_history/1" }) =
      { resource_type := some "Patient", interaction_type := some .vread,
        resource_id := some "123", version_id := some "1" } :=
  C5_vread_wins (fun s => s == "Patient") (by decide) (by decide)

/-- C6 counterexample: "x\n/metadata" contains "/metadata" and the method
is GET, but classification yields the empty result, not capabilities: the
pattern's leading `.*?` cannot cross the newline, so this occurrence of
/metadata is not matched. -/
theorem C6_counterexample :
    ("x\n/metadata" : String) = "x\n" ++ "/metadata" ∧
    parse_fhir_request (fun _ => true)
      (some { method := "GET", path := "x\n/metadata" }) =
      InteractionInfo.empty ∧
    InteractionInfo.empty ≠ capabilitiesInfo := by decide

/-- C6 (amended): for every oracle and every GET request whose path
contains an occurrence of "/metadata" preceded by no newline character
(i.e. matched by the metadata pattern), classification returns the
capabilities result, regardless of what any other matcher would say,
because the capabilities matcher is first in the priority order. -/
theorem C6_capabilities_first (o : String → Bool) (path : String)
    (h : metadataRegexMatch path.data = true) :
    parse_fhir_request o (some { method := "GET", path := path }) =
      capabilitiesInfo := by
  have hm : MetadataPathMatcher_match "GET" path = some capabilitiesInfo := by
    unfold MetadataPathMatcher_match
    rw [if_neg (by simp), h]
    rfl
  have hF : firstSome
      [MetadataPathMatcher_match "GET" path,
        ReadPathMatcher_match o "GET" path,
        VReadPathMatcher_match o "GET" path,
        CreatePathMatcher_match o "GET" path,
        SearchPathMatcher_match o "GET" path,
        UpdatePathMatcher_match o "GET" path,
        PatchPathMatcher_match o "GET" path,
        DeletePathMatcher_match o "GET" path] = some capabilitiesInfo := by
    rw [hm]
    rfl
  rw [parse_eq_of_firstSome hF]
  rfl

/-- C6 witness: GET /metadata under an all-rejecting oracle. -/
theorem C6_witness :
    parse_fhir_request (fun _ => false)
      (some { method := "GET", path := "/metadata" }) = capabilitiesInfo :=
  C6_capabilities_first (fun _ => false) "/metadata" (by decide)

/-- C7 counterexample: the resource_type class in the patterns is `[A-z]`,
which admits the six ASCII characters between Z and a; with an oracle
accepting "_", GET /_/1 produces a result whose resource_type "_" is not
made of ASCII letters. -/
theorem C7_counterexample :
    (parse_fhir_request (fun s => s == "_")
        (some { method := "GET", path := "/_/1" })).resource_type =
      some "_" ∧
    ("_" : String).data.all (fun c => c.isAlpha) = false := by decide

/-- C7 (amended): every resource_id or version_id carried by a result is 1
to 64 characters drawn from `[A-Za-z0-9.\-]`; every resource_type carried
by a result consists of characters in the ASCII range A..z (the class
`[A-z]` of the source, which contains the letters and also the six
characters between Z and a). -/
theorem C7_capture_character_classes (o : String → Bool)
    (req : Option Request) :
    (∀ s : String, (parse_fhir_request o req).resource_id = some s →
      isIdSegment s.data = true) ∧
    (∀ s : String, (parse_fhir_request o req).version_id = some s →
      isIdSegment s.data = true) ∧
    (∀ s : String, (parse_fhir_request o req).resource_type = some s →
      s.data.all isAzChar = true) := by
  rcases parse_wellFormed o req with he | he |
    ⟨⟨rt, hrt, -, -, haz⟩, -, hrid, hvid⟩
  · rw [he]
    exact ⟨fun s h => Option.noConfusion h, fun s h => Option.noConfusion h,
      fun s h => Option.noConfusion h⟩
  · rw [he]
    exact ⟨fun s h => Option.noConfusion h, fun s h => Option.noConfusion h,
      fun s h => Option.noConfusion h⟩
  · refine ⟨hrid, hvid, ?_⟩
    intro s h
    rw [hrt] at h
    rw [← Option.some_inj.mp h]
    exact haz

/-- C7 witness: the id constraint applied to the resource id captured from
GET /Patient/123. -/
theorem C7_witness : isIdSegment ("123" : String).data = true :=
  (C7_capture_character_classes (fun s => s == "Patient")
    (some { method := "GET", path := "/Patient/123" })).1 "123" (by decide)

/-- C8: the classifier is total — it returns a value on every method/path
pair (and the canonical empty result on an absent request), and when every
one of the eight matchers declines it returns the canonical empty result. -/
theorem C8_totality (o : String → Bool) (method path : String) :
    (∃ r, parse_fhir_request o
      (some { method := method, path := path }) = r) ∧
    parse_fhir_request o none = InteractionInfo.empty ∧
    (MetadataPathMatcher_match method path = none →
      ReadPathMatcher_match o method path = none →
      VReadPathMatcher_match o method path = none →
      CreatePathMatcher_match o method path = none →
      SearchPathMatcher_match o method path = none →
      UpdatePathMatcher_match o method path = none →
      PatchPathMatcher_match o method path = none →
      DeletePathMatcher_match o method path = none →
      parse_fhir_request o (some { method := method, path := path }) =
        InteractionInfo.empty) := by
  refine ⟨⟨_, rfl⟩, rfl, ?_⟩
  intro h0 h1 h2 h3 h4 h5 h6 h7
  have hF : firstSome
      [MetadataPathMatcher_match method path,
        ReadPathMatcher_match o method path,
        VReadPathMatcher_match o method path,
        CreatePathMatcher_match o method path,
        SearchPathMatcher_match o method path,
        UpdatePathMatcher_match o method path,
        PatchPathMatcher_match o method path,
        DeletePathMatcher_match o method path] = none := by
    rw [h0, h1, h2, h3, h4, h5, h6, h7]
    rfl
  rw [parse_eq_of_firstSome hF]
  rfl

/-- C8 witness: a HEAD request, which every matcher declines. -/
theorem C8_witness :
    parse_fhir_request (fun _ => true)
      (some { method := "HEAD", path := "/Patient/123" }) =
      InteractionInfo.empty :=
  (C8_totality (fun _ => true) "HEAD" "/Patient/123").2.2 (by decide)
    (by decide) (by decide) (by decide) (by decide) (by decide) (by decide)
    (by decide)

/-! ### PUT / PATCH / DELETE agree on shape and captures -/

lemma parse_put (o : String → Bool) (p : String) :
    parse_fhir_request o (some { method := "PUT", path := p }) =
      (UpdatePathMatcher_match o "PUT" p).getD InteractionInfo.empty := by
  cases hu : UpdatePathMatcher_match o "PUT" p with
  | none =>
    have hF : firstSome
        [MetadataPathMatcher_match "PUT" p,
          ReadPathMatcher_match o "PUT" p,
          VReadPathMatcher_match o "PUT" p,
          CreatePathMatcher_match o "PUT" p,
          SearchPathMatcher_match o "PUT" p,
          UpdatePathMatcher_match o "PUT" p,
          PatchPathMatcher_match o "PUT" p,
          DeletePathMatcher_match o "PUT" p] = none := by
      rw [hu]
      rfl
    rw [parse_eq_of_firstSome hF]
  | some x =>
    have hF : firstSome
        [MetadataPathMatcher_match "PUT" p,
          ReadPathMatcher_match o "PUT" p,
          VReadPathMatcher_match o "PUT" p,
          CreatePathMatcher_match o "PUT" p,
          SearchPathMatcher_match o "PUT" p,
          UpdatePathMatcher_match o "PUT" p,
          PatchPathMatcher_match o "PUT" p,
          DeletePathMatcher_match o "PUT" p] = some x := by
      rw [hu]
      rfl
    rw [parse_eq_of_firstSome hF]

lemma parse_patch (o : String → Bool) (p : String) :
    parse_fhir_request o (some { method := "PATCH", path := p }) =
      (PatchPathMatcher_match o "PATCH" p).getD InteractionInfo.empty := by
  cases hu : PatchPathMatcher_match o "PATCH" p with
  | none =>
    have hF : firstSome
        [MetadataPathMatcher_match "PATCH" p,
          ReadPathMatcher_match o "PATCH" p,
          VReadPathMatcher_match o "PATCH" p,
          CreatePathMatcher_match o "PATCH" p,
          SearchPathMatcher_match o "PATCH" p,
          UpdatePathMatcher_match o "PATCH" p,
          PatchPathMatcher_match o "PATCH" p,
          DeletePathMatcher_match o "PATCH" p] = none := by
      rw [hu]
      rfl
    rw [parse_eq_of_firstSome hF]
  | some x =>
    have hF : firstSome
        [MetadataPathMatcher_match "PATCH" p,
          ReadPathMatcher_match o "PATCH" p,
          VReadPathMatcher_match o "PATCH" p,
          CreatePathMatcher_match o "PATCH" p,
          SearchPathMatcher_match o "PATCH" p,
          UpdatePathMatcher_match o "PATCH" p,
          PatchPathMatcher_match o "PATCH" p,
          DeletePathMatcher_match o "PATCH" p] = some x := by
      rw [hu]
      rfl
    rw [parse_eq_of_firstSome hF]

lemma parse_delete (o : String → Bool) (p : String) :
    parse_fhir_request o (some { method := "DELETE", path := p }) =
      (DeletePathMatcher_match o "DELETE" p).getD InteractionInfo.empty := by
  cases hu : DeletePathMatcher_match o "DELETE" p with
  | none =>
    have hF : firstSome
        [MetadataPathMatcher_match "DELETE" p,
          ReadPathMatcher_match o "DELETE" p,
          VReadPathMatcher_match o "DELETE" p,
          CreatePathMatcher_match o "DELETE" p,
          SearchPathMatcher_match o "DELETE" p,
          UpdatePathMatcher_match o "DELETE" p,
          PatchPathMatcher_match o "DELETE" p,
          DeletePathMatcher_match o "DELETE" p] = none := by
      rw [hu]
      rfl
    rw [parse_eq_of_firstSome hF]
  | some x =>
    have hF : firstSome
        [MetadataPathMatcher_match "DELETE" p,
          ReadPathMatcher_match o "DELETE" p,
          VReadPathMatcher_match o "DELETE" p,
          CreatePathMatcher_match o "DELETE" p,
          SearchPathMatcher_match o "DELETE" p,
          UpdatePathMatcher_match o "DELETE" p,
          PatchPathMatcher_match o "DELETE" p,
          DeletePathMatcher_match o "DELETE" p] = some x := by
      rw [hu]
      rfl
    rw [parse_eq_of_firstSome hF]

lemma readlike_result_iff (o : String → Bool) (pd : List Char)
    (k₁ k₂ : InteractionType) (t i : String) :
    ((InteractionInfo.from_match o
        ((withDollar readRegexCore pd).map
          (fun ti => (String.mk ti.1, some (String.mk ti.2), none))) k₁).getD
        InteractionInfo.empty =
      { resource_type := some t, interaction_type := some k₁,
        resource_id := some i, version_id := none }) ↔
    ((InteractionInfo.from_match o
        ((withDollar readRegexCore pd).map
          (fun ti => (String.mk ti.1, some (String.mk ti.2), none))) k₂).getD
        InteractionInfo.empty =
      { resource_type := some t, interaction_type := some k₂,
        resource_id := some i, version_id := none }) := by
  cases hw : withDollar readRegexCore pd with
  | none =>
    simp [InteractionInfo.from_match, InteractionInfo.empty,
      InteractionInfo.mk.injEq]
  | some ti =>
    obtain ⟨t', i'⟩ := ti
    simp only [Option.map_some']
    unfold InteractionInfo.from_match
    simp only
    by_cases he : String.mk t' = ""
    · simp [he, InteractionInfo.empty, InteractionInfo.mk.injEq]
    · by_cases ho : o (String.mk t') = true
      · simp [he, ho, InteractionInfo.mk.injEq]
      · have ho' : o (String.mk t') = false := by
          simp [Bool.not_eq_true] at ho
          exact ho
        simp [he, ho', InteractionInfo.empty, InteractionInfo.mk.injEq]

/-- C9: the update, patch and delete matchers accept exactly the same
paths with the same resource type and id captures, differing only in the
reported kind: PUT p is a non-empty update result with captures (t, i) iff
PATCH p is the corresponding patch result iff DELETE p is the
corresponding delete result. -/
theorem C9_update_patch_delete_equiv (o : String → Bool) (p t i : String) :
    ((parse_fhir_request o (some { method := "PUT", path := p }) =
        { resource_type := some t, interaction_type := some .update,
          resource_id := some i, version_id := none }) ↔
      (parse_fhir_request o (some { method := "PATCH", path := p }) =
        { resource_type := some t, interaction_type := some .patch,
          resource_id := some i, version_id := none })) ∧
    ((parse_fhir_request o (some { method := "PATCH", path := p }) =
        { resource_type := some t, interaction_type := some .patch,
          resource_id := some i, version_id := none }) ↔
      (parse_fhir_request o (some { method := "DELETE", path := p }) =
        { resource_type := some t, interaction_type := some .delete,
          resource_id := some i, version_id := none })) := by
  constructor
  · rw [parse_put o p, parse_patch o p]
    exact readlike_result_iff o p.data .update .patch t i
  · rw [parse_patch o p, parse_delete o p]
    exact readlike_result_iff o p.data .patch .delete t i

/-- C9 witness: transporting the concrete PUT /Patient/123 update result to
the PATCH result. -/
theorem C9_witness :
    parse_fhir_request (fun s => s == "Patient")
      (some { method := "PATCH", path := "/Patient/123" }) =
      { resource_type := some "Patient", interaction_type := some .patch,
        resource_id := some "123", version_id := none } :=
  ((C9_update_patch_delete_equiv (fun s => s == "Patient") "/Patient/123"
    "Patient" "123").1).mp (by decide)

/-! ### Paths ending in a slash -/

lemma getLast?_append_slash (q : List Char) :
    (q ++ ['/']).getLast? = some '/' := by
  rw [List.getLast?_append_of_ne_nil q (by simp)]
  rfl

lemma withDollar_readRegexCore_slash (q : List Char) :
    withDollar readRegexCore (q ++ ['/']) = none := by
  have hc : readRegexCore (q ++ ['/']) = none := by
    unfold readRegexCore
    rw [splitLastSlash_append_slash]
    rfl
  unfold withDollar
  rw [hc, if_neg (by rw [getLast?_append_slash]; simp)]

lemma withDollar_vreadRegexCore_slash (q : List Char) :
    withDollar vreadRegexCore (q ++ ['/']) = none := by
  have hc : vreadRegexCore (q ++ ['/']) = none := by
    unfold vreadRegexCore
    rw [splitLastSlash_append_slash]
    rfl
  unfold withDollar
  rw [hc, if_neg (by rw [getLast?_append_slash]; simp)]

lemma withDollar_searchPostRegexCore_slash (q : List Char) :
    withDollar searchPostRegexCore (q ++ ['/']) = none := by
  have hc : searchPostRegexCore (q ++ ['/']) = none := by
    unfold searchPostRegexCore
    rw [splitLastSlash_append_slash]
    rfl
  unfold withDollar
  rw [hc, if_neg (by rw [getLast?_append_slash]; simp)]

lemma readlike_from_match_slash (o : String → Bool) (q : List Char)
    (k : InteractionType) :
    InteractionInfo.from_match o
      ((withDollar readRegexCore (q ++ ['/'])).map
        (fun ti => (String.mk ti.1, some (String.mk ti.2), none))) k =
      none := by
  rw [withDollar_readRegexCore_slash]
  rfl

lemma typelike_from_match_slash (o : String → Bool) (q : List Char)
    (k : InteractionType) :
    InteractionInfo.from_match o
      ((withDollar createRegexCore (q ++ ['/'])).map
        (fun t => (String.mk t, none, none))) k = none := by
  by_cases hq : q.all (fun c => c != '\n') = true
  · have hw : withDollar createRegexCore (q ++ ['/']) = some [] := by
      have hc : createRegexCore (q ++ ['/']) = some [] := by
        unfold createRegexCore
        rw [splitLastSlash_append_slash]
        simp [hq]
      unfold withDollar
      rw [hc]
    rw [hw]
    rfl
  · have hq' : q.all (fun c => c != '\n') = false := by
      simp only [Bool.not_eq_true] at hq
      exact hq
    have hc : createRegexCore (q ++ ['/']) = none := by
      unfold createRegexCore
      rw [splitLastSlash_append_slash]
      simp [hq']
    have hw : withDollar createRegexCore (q ++ ['/']) = none := by
      unfold withDollar
      rw [hc, if_neg (by rw [getLast?_append_slash]; simp)]
    rw [hw]
    rfl

lemma ReadPathMatcher_slash (o : String → Bool) (method : String)
    (q : List Char) :
    ReadPathMatcher_match o method (String.mk (q ++ ['/'])) = none := by
  unfold ReadPathMatcher_match
  by_cases hm : (method != "GET") = true
  · rw [if_pos hm]
  · rw [if_neg hm]
    exact readlike_from_match_slash o q .read

lemma VReadPathMatcher_slash (o : String → Bool) (method : String)
    (q : List Char) :
    VReadPathMatcher_match o method (String.mk (q ++ ['/'])) = none := by
  unfold VReadPathMatcher_match
  by_cases hm : (method != "GET") = true
  · rw [if_pos hm]
  · rw [if_neg hm]
    show InteractionInfo.from_match o
      ((withDollar vreadRegexCore (q ++ ['/'])).map
        (fun tiv => (String.mk tiv.1, some (String.mk tiv.2.1),
          some (String.mk tiv.2.2)))) .vread = none
    rw [withDollar_vreadRegexCore_slash]
    rfl

lemma CreatePathMatcher_slash (o : String → Bool) (method : String)
    (q : List Char) :
    CreatePathMatcher_match o method (String.mk (q ++ ['/'])) = none := by
  unfold CreatePathMatcher_match
  by_cases hm : (method != "POST") = true
  · rw [if_pos hm]
  · rw [if_neg hm]
    exact typelike_from_match_slash o q .create

lemma SearchPathMatcher_slash (o : String → Bool) (method : String)
    (q : List Char) :
    SearchPathMatcher_match o method (String.mk (q ++ ['/'])) = none := by
  unfold SearchPathMatcher_match
  by_cases hm : (!(method = "GET" || method = "POST")) = true
  · rw [if_pos hm]
  · rw [if_neg hm]
    by_cases hget : method = "GET"
    · rw [if_pos hget]
      exact typelike_from_match_slash o q .searchType
    · rw [if_neg hget]
      show InteractionInfo.from_match o
        ((withDollar searchPostRegexCore (q ++ ['/'])).map
          (fun t => (String.mk t, none, none))) .searchType = none
      rw [withDollar_searchPostRegexCore_slash]
      rfl

lemma UpdatePathMatcher_slash (o : String → Bool) (method : String)
    (q : List Char) :
    UpdatePathMatcher_match o method (String.mk (q ++ ['/'])) = none := by
  unfold UpdatePathMatcher_match
  by_cases hm : (method != "PUT") = true
  · rw [if_pos hm]
  · rw [if_neg hm]
    exact readlike_from_match_slash o q .update

lemma PatchPathMatcher_slash (o : String → Bool) (method : String)
    (q : List Char) :
    PatchPathMatcher_match o method (String.mk (q ++ ['/'])) = none := by
  unfold PatchPathMatcher_match
  by_cases hm : (method != "PATCH") = true
  · rw [if_pos hm]
  · rw [if_neg hm]
    exact readlike_from_match_slash o q .patch

lemma DeletePathMatcher_slash (o : String → Bool) (method : String)
    (q : List Char) :
    DeletePathMatcher_match o method (String.mk (q ++ ['/'])) = none := by
  unfold DeletePathMatcher_match
  by_cases hm : (method != "DELETE") = true
  · rw [if_pos hm]
  · rw [if_neg hm]
    exact readlike_from_match_slash o q .delete

/-- C10 counterexample: "x\n/metadata/" ends in a slash, the method is GET
and the path contains "/metadata", yet classification yields the empty
result rather than capabilities, because the occurrence of /metadata is
preceded by a newline that the pattern's `.*?` cannot cross. -/
theorem C10_counterexample :
    ("x\n/metadata/" : String) = "x\n" ++ "/metadata" ++ "/" ∧
    parse_fhir_request (fun _ => true)
      (some { method := "GET", path := "x\n/metadata/" }) =
      InteractionInfo.empty ∧
    InteractionInfo.empty ≠ capabilitiesInfo := by decide

/-- C10 (amended): an empty resource-type capture is rejected by the guard
regardless of the oracle's verdict, and for every method and every path
ending in '/', classification yields the canonical empty result — unless
the method is GET and the metadata pattern matches the path (an occurrence
of "/metadata" with no newline before it), in which case it yields the
capabilities result. -/
theorem C10_empty_capture_and_trailing_slash :
    (∀ (o : String → Bool) (rid vid : Option String) (it : InteractionType),
      InteractionInfo.from_match o (some ("", rid, vid)) it = none) ∧
    (∀ (o : String → Bool) (method : String) (q : List Char),
      parse_fhir_request o
        (some { method := method, path := String.mk (q ++ ['/']) }) =
        (if method == "GET" && metadataRegexMatch (q ++ ['/']) then
          capabilitiesInfo
        else InteractionInfo.empty)) := by
  constructor
  · intro o rid vid it
    rfl
  · intro o method q
    by_cases hg : (method == "GET" && metadataRegexMatch (q ++ ['/'])) = true
    · rw [if_pos hg]
      simp only [Bool.and_eq_true, beq_iff_eq] at hg
      obtain ⟨hmeq, hmm⟩ := hg
      subst hmeq
      have hM : MetadataPathMatcher_match "GET" (String.mk (q ++ ['/'])) =
          some capabilitiesInfo := by
        unfold MetadataPathMatcher_match
        rw [if_neg (by simp)]
        show (if !(metadataRegexMatch (q ++ ['/'])) then none
          else some { resource_type := none,
                      interaction_type := some .capabilities,
                      resource_id := none, version_id := none }) =
          some capabilitiesInfo
        rw [hmm]
        rfl
      have hF : firstSome
          [MetadataPathMatcher_match "GET" (String.mk (q ++ ['/'])),
            ReadPathMatcher_match o "GET" (String.mk (q ++ ['/'])),
            VReadPathMatcher_match o "GET" (String.mk (q ++ ['/'])),
            CreatePathMatcher_match o "GET" (String.mk (q ++ ['/'])),
            SearchPathMatcher_match o "GET" (String.mk (q ++ ['/'])),
            UpdatePathMatcher_match o "GET" (String.mk (q ++ ['/'])),
            PatchPathMatcher_match o "GET" (String.mk (q ++ ['/'])),
            DeletePathMatcher_match o "GET" (String.mk (q ++ ['/']))] =
          some capabilitiesInfo := by
        rw [hM]
        rfl
      rw [parse_eq_of_firstSome hF]
      rfl
    · rw [if_neg hg]
      have hM : MetadataPathMatcher_match method (String.mk (q ++ ['/'])) =
          none := by
        unfold MetadataPathMatcher_match
        by_cases hmeq : (method != "GET") = true
        · rw [if_pos hmeq]
        · rw [if_neg hmeq]
          have hmeq' : method = "GET" := bne_false_eq hmeq
          subst hmeq'
          have hmm : metadataRegexMatch (q ++ ['/']) = false := by
            by_contra hcc
            rw [Bool.not_eq_false] at hcc
            exact hg (by simp [hcc])
          show (if !(metadataRegexMatch (q ++ ['/'])) then none
            else some ({ resource_type := none,
                         interaction_type := some .capabilities,
                         resource_id := none,
                         version_id := none } : InteractionInfo)) = none
          rw [hmm]
          rfl
      have hF : firstSome
          [MetadataPathMatcher_match method (String.mk (q ++ ['/'])),
            ReadPathMatcher_match o method (String.mk (q ++ ['/'])),
            VReadPathMatcher_match o method (String.mk (q ++ ['/'])),
            CreatePathMatcher_match o method (String.mk (q ++ ['/'])),
            SearchPathMatcher_match o method (String.mk (q ++ ['/'])),
            UpdatePathMatcher_match o method (String.mk (q ++ ['/'])),
            PatchPathMatcher_match o method (String.mk (q ++ ['/'])),
            DeletePathMatcher_match o method (String.mk (q ++ ['/']))] =
          none := by
        rw [hM, ReadPathMatcher_slash o method q,
          VReadPathMatcher_slash o method q,
          CreatePathMatcher_slash o method q,
          SearchPathMatcher_slash o method q,
          UpdatePathMatcher_slash o method q,
          PatchPathMatcher_slash o method q,
          DeletePathMatcher_slash o method q]
        rfl
      rw [parse_eq_of_firstSome hF]
      rfl

/-- C10 witness: POST /Patient/ (trailing slash) classifies to the empty
result. -/
theorem C10_witness :
    InteractionInfo.from_match (fun _ => true) (some ("", none, none))
      .create = none ∧
    parse_fhir_request (fun _ => true)
      (some { method := "POST",
              path := String.mk (("/Patient" : String).data ++ ['/']) }) =
      (if "POST" == "GET" &&
          metadataRegexMatch (("/Patient" : String).data ++ ['/']) then
        capabilitiesInfo
      else InteractionInfo.empty) :=
  ⟨C10_empty_capture_and_trailing_slash.1 (fun _ => true) none none .create,
    C10_empty_capture_and_trailing_slash.2 (fun _ => true) "POST"
      ("/Patient" : String).data⟩
